import Mathlib

/-!
Verification development for the transcription-proxy repository.

Strings from the Go source are modelled as `List Char`; byte payloads
(audio/video chunks) as `List Nat`.  External processes (ffmpeg,
whisper-ctranslate2, argos-translate) are modelled as oracles passed in
explicitly, so that every function of the repository becomes a pure,
executable Lean function of its inputs and the oracle outcomes.
-/

namespace TranscriptionProxy

/-! ### Character-list utilities (embeddings of the Go `strings`/`bytes` helpers used) -/

/-- Whitespace predicate used by `strings.TrimSpace` / `bytes.TrimSpace`
(ASCII whitespace plus NEL and NBSP; the unicode cases beyond these do not
occur in the repository's data). -/
def goIsSpace (c : Char) : Bool :=
  c = ' ' || c = '\t' || c = '\n' || c = '\x0b' || c = '\x0c' || c = '\r' ||
  c = '\x85' || c = '\xa0'

/-- `strings.TrimSpace`: drop leading and trailing whitespace. -/
def trimSpace (s : List Char) : List Char :=
  ((s.dropWhile goIsSpace).reverse.dropWhile goIsSpace).reverse

/-- `strings.Split s (String.singleton sep)` : split around every occurrence
of the one-character separator.  Always returns at least one piece. -/
def splitOnChar (sep : Char) : List Char → List (List Char)
  | [] => [[]]
  | c :: rest =>
    match splitOnChar sep rest with
    | [] => [[c]]
    | cur :: more => if c = sep then [] :: cur :: more else (c :: cur) :: more

/-- Split at the first occurrence of `sep`, if any. -/
def breakOnChar (sep : Char) : List Char → Option (List Char × List Char)
  | [] => none
  | c :: rest =>
    if c = sep then some ([], rest)
    else (breakOnChar sep rest).map (fun p => (c :: p.1, p.2))

/-- `strings.SplitN s sep 3` for a one-character separator:
at most three pieces, the last one keeps any further separators. -/
def splitN3 (sep : Char) (s : List Char) : List (List Char) :=
  match breakOnChar sep s with
  | none => [s]
  | some (a, r) =>
    match breakOnChar sep r with
    | none => [a, r]
    | some (b, r2) => [a, b, r2]

/-- `strings.Split timeRange "-->"` : split around every occurrence of the
three-character separator `-->`. -/
def splitOnArrow : List Char → List (List Char)
  | '-' :: '-' :: '>' :: rest =>
    match splitOnArrow rest with
    | [] => [[], []]
    | more => [] :: more
  | c :: rest =>
    match splitOnArrow rest with
    | [] => [[c]]
    | cur :: more => (c :: cur) :: more
  | [] => [[]]

/-- Fuel-driven helper for `natToDigits` (structural recursion so that
concrete renderings reduce inside the kernel; the fuel `n + 1` always
suffices since `n / 10 < n` for `n ≥ 10`). -/
def natToDigitsAux : Nat → Nat → List Char
  | _, 0 => []
  | n, fuel + 1 =>
    if n < 10 then [Char.ofNat (48 + n)]
    else natToDigitsAux (n / 10) fuel ++ [Char.ofNat (48 + n % 10)]

/-- Decimal digit renderer: the digits of `n` in order (embedding of Go's
`%d` formatting of a non-negative int). -/
def natToDigits (n : Nat) : List Char :=
  natToDigitsAux n (n + 1)

/-- Go `%02d` formatting of a non-negative value. -/
def pad2 (n : Nat) : List Char :=
  if n < 10 then '0' :: natToDigits n else natToDigits n

/-- Go `%03d` formatting of a non-negative value. -/
def pad3 (n : Nat) : List Char :=
  if n < 10 then '0' :: '0' :: natToDigits n
  else if n < 100 then '0' :: natToDigits n
  else natToDigits n

def digitVal (c : Char) : Nat := c.toNat - 48

/-- Parse an all-digit, nonempty string as a natural number. -/
def parseNatDigits (s : List Char) : Option Nat :=
  if s ≠ [] ∧ s.all Char.isDigit then
    some (s.foldl (fun a c => a * 10 + digitVal c) 0)
  else none

/-! ### Embedding of `fmt.Sscanf(s, "%f", &x)`

`parseTimestamp` scans each timestamp field with `fmt.Sscanf(part, "%f",
&v)` and ignores the returned error, so `v` keeps its zero value whenever
the scan fails.  The definitions below follow `fmt`'s scanner: `Sscanf`
(newlines are not space), `(*ss).SkipSpace` and `notEOF`, `(*ss).floatToken`
(NaN checked before the sign, `inf` after it, decimal/hex digit runs with
`_`, optional fraction and exponent), `(*ss).convertFloat` (a token holding
a lowercase `p` is split into a `strconv.ParseFloat` mantissa and a
`strconv.Atoi` binary exponent), and `strconv.ParseFloat` itself (special
values `inf`/`infinity`/`nan`, underscore placement as in Go literals,
decimal mantissa with optional `e`/`E` exponent, `0x` mantissa with
mandatory `p`/`P` exponent).  Values are exact rationals: float64 rounding
(and the range overflow that `fmt` turns into a scan failure) is the one
idealization, and no theorem below depends on a value near those limits. -/

/-- The four values a Go `float64` scan can produce, with the finite case
carrying the exact rational value of the literal. -/
inductive GoFloat where
  | finite (q : ℚ)
  | posInf
  | negInf
  | nan
  deriving DecidableEq, Repr

/-- Multiplication by a positive finite constant (the `*3600` / `*60` of
`parseTimestamp`): infinities keep their sign, NaN propagates. -/
def GoFloat.mulPos (x : GoFloat) (k : ℚ) : GoFloat :=
  match x with
  | finite q => finite (q * k)
  | posInf => posInf
  | negInf => negInf
  | nan => nan

/-- IEEE addition at the level of the four cases: NaN propagates, opposite
infinities give NaN, an infinity absorbs anything finite. -/
def GoFloat.add : GoFloat → GoFloat → GoFloat
  | nan, _ => nan
  | _, nan => nan
  | posInf, negInf => nan
  | negInf, posInf => nan
  | posInf, _ => posInf
  | _, posInf => posInf
  | negInf, _ => negInf
  | _, negInf => negInf
  | finite a, finite b => finite (a + b)

/-- `2^m` as an exact rational, for an integer `m`. -/
def qpow2 (m : Int) : ℚ :=
  if 0 ≤ m then ((2 ^ m.toNat : Nat) : ℚ) else 1 / ((2 ^ (-m).toNat : Nat) : ℚ)

/-- `math.Ldexp`: multiply by `2^m`; infinities and NaN are unchanged. -/
def GoFloat.ldexp (x : GoFloat) (m : Int) : GoFloat :=
  match x with
  | finite q => finite (q * qpow2 m)
  | y => y

/-- Projection to the rational model used by `Segment`'s time fields.
Non-finite values, which the exact-rational segment model cannot carry,
map to `0`; no theorem relies on this case. -/
def GoFloat.toRatModel : GoFloat → ℚ
  | finite q => q
  | _ => 0

/-- `strconv`'s `lower` on the letters that matter (ASCII). -/
def lowerChar (c : Char) : Char :=
  if 'A' ≤ c ∧ c ≤ 'Z' then Char.ofNat (c.toNat + 32) else c

def lowerStr (s : List Char) : List Char := s.map lowerChar

def isSignChar (c : Char) : Bool := c = '+' || c = '-'

/-- `fmt`'s `decimalDigits + "_"` accept set. -/
def isDecDigitU (c : Char) : Bool := c.isDigit || c = '_'

/-- `fmt`'s `hexadecimalDigits` (`0-9aAbBcCdDeEfF`). -/
def isHexDigitChar (c : Char) : Bool :=
  c.isDigit || ('a' ≤ c && c ≤ 'f') || ('A' ≤ c && c ≤ 'F')

def isHexDigitU (c : Char) : Bool := isHexDigitChar c || c = '_'

/-- One `s.accept(set)` step of `fmt`'s scanner on the state
`(token buffer, remaining input)`: consume the next character into the
buffer when it belongs to the set, else leave the state unchanged. -/
def ftAcc (p : Char → Bool) : List Char × List Char → Bool × List Char × List Char
  | (buf, c :: r) => if p c then (true, buf ++ [c], r) else (false, buf, c :: r)
  | (buf, []) => (false, buf, [])

/-- `for s.accept(digits) {}` : consume a maximal run into the buffer. -/
def ftRun (p : Char → Bool) (st : List Char × List Char) : List Char × List Char :=
  (st.1 ++ st.2.takeWhile p, st.2.dropWhile p)

/-- Number part of `fmt.(*ss).floatToken` after the NaN/sign/Inf prologue:
digit run, optional `.` with fraction run, optional exponent marker with
optional sign and digit run.  `dig`/`ex` are the digit and exponent accept
sets (decimal: `0-9_` and `eEpP`; after `0x`/`0X`: hex digits with `_`
and `pP`). -/
def floatTokenNum (dig ex : Char → Bool) (st : List Char × List Char) : List Char :=
  let d1 := ftRun dig st
  let p := ftAcc (fun c => c = '.') d1
  let d2 := if p.1 then ftRun dig p.2 else p.2
  let e := ftAcc ex d2
  if e.1 then (ftRun dig (ftAcc isSignChar e.2).2).1
  else e.2.1

/-- `if s.accept("0") && s.accept("xX")` of `floatToken`: a consumed `0`
not followed by `x`/`X` stays in the buffer and scanning continues in
decimal mode. -/
def floatTokenHexOrDec (st : List Char × List Char) : List Char :=
  let z := ftAcc (fun c => c = '0') st
  if z.1 then
    let x := ftAcc (fun c => c = 'x' || c = 'X') z.2
    if x.1 then floatTokenNum isHexDigitU (fun c => c = 'p' || c = 'P') x.2
    else floatTokenNum isDecDigitU (fun c => c = 'e' || c = 'E' || c = 'p' || c = 'P') x.2
  else floatTokenNum isDecDigitU (fun c => c = 'e' || c = 'E' || c = 'p' || c = 'P') z.2

/-- Sign and `Inf` prologue of `floatToken` (after the NaN check):
characters consumed by a failed multi-character match stay in the buffer,
exactly as `s.accept` leaves them. -/
def floatTokenAfterNaN (st : List Char × List Char) : List Char :=
  let sg := ftAcc isSignChar st
  let i1 := ftAcc (fun c => c = 'i' || c = 'I') sg.2
  if i1.1 then
    let i2 := ftAcc (fun c => c = 'n' || c = 'N') i1.2
    if i2.1 then
      let i3 := ftAcc (fun c => c = 'f' || c = 'F') i2.2
      if i3.1 then i3.2.1
      else floatTokenHexOrDec i3.2
    else floatTokenHexOrDec i2.2
  else floatTokenHexOrDec i1.2

/-- `fmt.(*ss).floatToken`: the NaN check runs before the sign, and a
complete `nan` returns at once. -/
def floatToken (s : List Char) : List Char :=
  let n1 := ftAcc (fun c => c = 'n' || c = 'N') ([], s)
  if n1.1 then
    let n2 := ftAcc (fun c => c = 'a' || c = 'A') n1.2
    if n2.1 then
      let n3 := ftAcc (fun c => c = 'n' || c = 'N') n2.2
      if n3.1 then n3.2.1
      else floatTokenAfterNaN n3.2
    else floatTokenAfterNaN n2.2
  else floatTokenAfterNaN n1.2

/-- `strconv`'s `special`: `inf`/`infinity` with optional sign, `nan`
without one — here against the whole string, as `ParseFloat` requires the
input consumed entirely. -/
def specialFloat (s : List Char) : Option GoFloat :=
  if lowerStr s = "nan".toList then some .nan
  else
    match s with
    | '+' :: r =>
      if lowerStr r = "inf".toList ∨ lowerStr r = "infinity".toList then some .posInf
      else none
    | '-' :: r =>
      if lowerStr r = "inf".toList ∨ lowerStr r = "infinity".toList then some .negInf
      else none
    | r =>
      if lowerStr r = "inf".toList ∨ lowerStr r = "infinity".toList then some .posInf
      else none

def isHexLetter (c : Char) : Bool :=
  ('a' ≤ c && c ≤ 'f') || ('A' ≤ c && c ≤ 'F')

/-- Loop of `strconv`'s `underscoreOK`: `saw` is `'0'` after a digit (or
the base prefix), `'_'` after an underscore, `'^'` at the start and `'!'`
after any other character; an underscore must sit between digits. -/
def underscoreOKAux (hex : Bool) : Char → List Char → Bool
  | saw, [] => if saw = '_' then false else true
  | saw, c :: r =>
    if c.isDigit || (hex && isHexLetter c) then underscoreOKAux hex '0' r
    else if c = '_' then
      if saw = '0' then underscoreOKAux hex '_' r else false
    else if saw = '_' then false
    else underscoreOKAux hex '!' r

/-- `strconv.underscoreOK`: optional sign, optional `0b`/`0o`/`0x` prefix
(which counts as a digit for separator purposes), then the loop. -/
def underscoreOK (s : List Char) : Bool :=
  let s1 := match s with
    | c :: r => if isSignChar c then r else c :: r
    | [] => []
  match s1 with
  | '0' :: c :: r =>
    if lowerChar c = 'b' ∨ lowerChar c = 'o' ∨ lowerChar c = 'x' then
      underscoreOKAux (lowerChar c = 'x') '0' r
    else underscoreOKAux false '^' ('0' :: c :: r)
  | t => underscoreOKAux false '^' t

/-- Value of an all-decimal-digit string. -/
def natVal (s : List Char) : Nat := s.foldl (fun a c => a * 10 + digitVal c) 0

def hexDigitVal (c : Char) : Nat :=
  if c.isDigit then digitVal c
  else if 'a' ≤ c ∧ c ≤ 'f' then c.toNat - 87
  else c.toNat - 55

def hexVal (s : List Char) : Nat := s.foldl (fun a c => a * 16 + hexDigitVal c) 0

/-- `10^e` as an exact rational, for an integer `e`. -/
def qpow10 (e : Int) : ℚ :=
  if 0 ≤ e then ((10 ^ e.toNat : Nat) : ℚ) else 1 / ((10 ^ (-e).toNat : Nat) : ℚ)

/-- Exponent digits: optional sign then at least one decimal digit,
consumed entirely (underscores were filtered out before this point). -/
def parseExpDigits (t : List Char) : Option Int :=
  let sgRest : Int × List Char :=
    match t with
    | '+' :: u => (1, u)
    | '-' :: u => (-1, u)
    | _ => (1, t)
  if sgRest.2 ≠ [] ∧ sgRest.2.all Char.isDigit then
    some (sgRest.1 * (natVal sgRest.2 : Int))
  else none

/-- Decimal tail of `ParseFloat`: at least one mantissa digit, then either
nothing or an `e`/`E` exponent; the value is
`sign * (I + F/10^|F|) * 10^E` exactly. -/
def parseDecTail (sg : ℚ) (ip fp r2 : List Char) : Option ℚ :=
  if ip = [] ∧ fp = [] then none
  else
    let mant : ℚ := sg * ((natVal ip : ℚ) + (natVal fp : ℚ) / (10 : ℚ) ^ fp.length)
    match r2 with
    | [] => some mant
    | e :: t =>
      if e = 'e' ∨ e = 'E' then
        match parseExpDigits t with
        | some ev => some (mant * qpow10 ev)
        | none => none
      else none

def parseDecMantissa (sg : ℚ) (s : List Char) : Option ℚ :=
  let ip := s.takeWhile Char.isDigit
  let r1 := s.dropWhile Char.isDigit
  match r1 with
  | '.' :: t => parseDecTail sg ip (t.takeWhile Char.isDigit) (t.dropWhile Char.isDigit)
  | _ => parseDecTail sg ip [] r1

/-- Hex tail of `ParseFloat`: at least one mantissa digit and a mandatory
`p`/`P` binary exponent; the value is `sign * (H + F/16^|F|) * 2^P`. -/
def parseHexTail (sg : ℚ) (ip fp r2 : List Char) : Option ℚ :=
  if ip = [] ∧ fp = [] then none
  else
    match r2 with
    | p :: t =>
      if p = 'p' ∨ p = 'P' then
        match parseExpDigits t with
        | some ev =>
          some (sg * ((hexVal ip : ℚ) + (hexVal fp : ℚ) / (16 : ℚ) ^ fp.length) *
            qpow2 ev)
        | none => none
      else none
    | [] => none

def parseHexMantissa (sg : ℚ) (s : List Char) : Option ℚ :=
  let ip := s.takeWhile isHexDigitChar
  let r1 := s.dropWhile isHexDigitChar
  match r1 with
  | '.' :: t => parseHexTail sg ip (t.takeWhile isHexDigitChar) (t.dropWhile isHexDigitChar)
  | _ => parseHexTail sg ip [] r1

/-- Number grammar of `strconv.ParseFloat` on an underscore-free string:
optional sign, then a `0x`/`0X` hex mantissa or a decimal one. -/
def parseFloatNum (s : List Char) : Option ℚ :=
  let sgRest : ℚ × List Char :=
    match s with
    | '+' :: r => ((1 : ℚ), r)
    | '-' :: r => ((-1 : ℚ), r)
    | _ => ((1 : ℚ), s)
  match sgRest.2 with
  | '0' :: x :: r =>
    if x = 'x' ∨ x = 'X' then parseHexMantissa sgRest.1 r
    else parseDecMantissa sgRest.1 ('0' :: x :: r)
  | _ => parseDecMantissa sgRest.1 sgRest.2

/-- `strconv.ParseFloat` (64-bit), exact-rational value: special values
first, then underscore-placement validation, then the number grammar on
the string with underscores removed. -/
def goParseFloat (s : List Char) : Option GoFloat :=
  match specialFloat s with
  | some f => some f
  | none =>
    if underscoreOK s then
      match parseFloatNum (s.filter (fun c => decide (c ≠ '_'))) with
      | some q => some (.finite q)
      | none => none
    else none

/-- `strconv.Atoi`: optional sign, at least one decimal digit, consumed
entirely (base-10 `ParseInt` admits no underscores). -/
def goAtoi (s : List Char) : Option Int :=
  let sgRest : Int × List Char :=
    match s with
    | '+' :: t => (1, t)
    | '-' :: t => (-1, t)
    | _ => (1, s)
  if sgRest.2 ≠ [] ∧ sgRest.2.all Char.isDigit then
    some (sgRest.1 * (natVal sgRest.2 : Int))
  else none

/-- `fmt.(*ss).convertFloat`: a token containing a lowercase `p` is split
at its first occurrence into a `ParseFloat` mantissa and an `Atoi` binary
exponent (`math.Ldexp`); otherwise `ParseFloat` handles the whole token
(including `0x…P…`, whose uppercase `P` skips the split). -/
def convertFloat (str : List Char) : Option GoFloat :=
  if str.contains 'p' then
    match goParseFloat (str.takeWhile (fun c => decide (c ≠ 'p'))),
          goAtoi ((str.dropWhile (fun c => decide (c ≠ 'p'))).tail) with
    | some f, some m => some (f.ldexp m)
    | _, _ => none
  else goParseFloat str

/-- `(*ss).SkipSpace` with `nlIsSpace = false` (the `Sscanf` mode): spaces
are skipped, but a newline — or a carriage return directly before one —
is a scan error. -/
def skipSpaceScan : List Char → Option (List Char)
  | [] => some []
  | c :: r =>
    if c = '\n' then none
    else if c = '\r' then
      match r with
      | '\n' :: _ => none
      | _ => skipSpaceScan r
    else if goIsSpace c then skipSpaceScan r
    else some (c :: r)

/-- `fmt.Sscanf(s, "%f", &x)` up to the assignment: skip space (newline is
an error), fail at end of input (`notEOF`), tokenize, convert.  `none` is
a scan error, which leaves the scanned variable unchanged. -/
def goScanFloat (s : List Char) : Option GoFloat :=
  match skipSpaceScan s with
  | none => none
  | some [] => none
  | some (c :: r) => convertFloat (floatToken (c :: r))

/-- The scanned variable after `fmt.Sscanf(s, "%f", &x)` with `x`
initialized to `0.0` and the error ignored, as in `parseTimestamp`. -/
def sscanfFloatF (s : List Char) : GoFloat :=
  (goScanFloat s).getD (.finite 0)

/-! ### `internal/transcriber` : transcript parsing -/

/-- `transcriber.Segment`.  Go's `End` field is named `stop` here (`end` is a
Lean keyword); `float64` seconds are modelled as exact rationals. -/
structure Segment where
  id : Nat
  start : ℚ
  stop : ℚ
  text : List Char
  timestamp : List Char
  deriving DecidableEq, Repr

/-- `parseTimestamp`: split on `:` expecting exactly three fields, scan
each with `fmt.Sscanf "%f"` into a zero-initialized variable, and combine
as `hours*3600 + minutes*60 + seconds`.  Returns the value together with
an error flag; the caller (`parseTranscript`) discards the error and uses
the value, which is `0` whenever the field-count check fails. -/
def parseTimestamp (timestamp : List Char) : GoFloat × Bool :=
  match splitOnChar ':' timestamp with
  | [p0, p1, p2] =>
    ((((sscanfFloatF p0).mulPos 3600).add ((sscanfFloatF p1).mulPos 60)).add
      (sscanfFloatF p2), false)
  | _ => (GoFloat.finite 0, true)

def inBrackets (c : Char) : Bool := c = '[' || c = ']'

/-- `strings.Trim(s, "[]")`. -/
def trimBrackets (s : List Char) : List Char :=
  ((s.dropWhile inBrackets).reverse.dropWhile inBrackets).reverse

/-- Body of one iteration of `parseTranscript`'s loop: `i` is the index of
the line in the split transcript, and a `continue` becomes `none`. -/
def parseLine (i : Nat) (line : List Char) : Option Segment :=
  if trimSpace line = [] then none
  else
    let parts := splitN3 ' ' line
    if parts.length < 3 then none
    else
      let timeRange := trimBrackets (parts.getD 0 [])
      let timeParts := splitOnArrow timeRange
      if timeParts.length ≠ 2 then none
      else
        some
          { id := i
            start := (parseTimestamp (trimSpace (timeParts.getD 0 []))).1.toRatModel
            stop := (parseTimestamp (trimSpace (timeParts.getD 1 []))).1.toRatModel
            text := trimSpace (parts.getD 2 [])
            timestamp := timeRange }

/-- `parseTranscript`: split into lines, skip blank or malformed lines,
collect the rest in order. -/
def parseTranscript (transcript : List Char) : List Segment :=
  ((splitOnChar '\n' transcript).enum.map (fun p => parseLine p.1 p.2)).reduceOption

/-! ### `internal/subtitles` : rendering and embedding -/

inductive SubtitleFormat where
  | srt
  | vtt
  | none
  deriving DecidableEq, Repr

/-- `time.Duration(seconds * float64(time.Second))`: the nanosecond count,
truncated toward zero (exact-rational model of the float computation). -/
def goDurationNs (seconds : ℚ) : Int :=
  Int.tdiv (seconds.num * 1000000000) (seconds.den : Int)

/-- Go `%02d` of a possibly-negative int (negative values, which never arise
for the non-negative times considered in the theorems below, keep their sign
and digits). -/
def pad2Int (i : Int) : List Char :=
  if i < 0 then '-' :: natToDigits i.natAbs else pad2 i.toNat

def pad3Int (i : Int) : List Char :=
  if i < 0 then '-' :: natToDigits i.natAbs else pad3 i.toNat

/-- `formatSRTTime`: `HH:MM:SS,mmm` from float seconds, each component
computed from the truncated duration exactly as in the source. -/
def formatSRTTime (seconds : ℚ) : List Char :=
  let d := goDurationNs seconds
  let h := Int.tdiv d 3600000000000
  let m := Int.tmod (Int.tdiv d 60000000000) 60
  let s := Int.tmod (Int.tdiv d 1000000000) 60
  let ms := Int.tmod (Int.tdiv d 1000000) 1000
  pad2Int h ++ ':' :: pad2Int m ++ ':' :: pad2Int s ++ ',' :: pad3Int ms

/-- `formatVTTTime`: identical but with a `.` millisecond separator. -/
def formatVTTTime (seconds : ℚ) : List Char :=
  let d := goDurationNs seconds
  let h := Int.tdiv d 3600000000000
  let m := Int.tmod (Int.tdiv d 60000000000) 60
  let s := Int.tmod (Int.tdiv d 1000000000) 60
  let ms := Int.tmod (Int.tdiv d 1000000) 1000
  pad2Int h ++ ':' :: pad2Int m ++ ':' :: pad2Int s ++ '.' :: pad3Int ms

/-- One SRT cue as written by `generateSubtitleData`:
index line, time line, text line, blank line. -/
def srtBlock (i : Nat) (seg : Segment) : List Char :=
  natToDigits (i + 1) ++ '\n' ::
    (formatSRTTime seg.start ++ ' ' :: '-' :: '-' :: '>' :: ' ' :: formatSRTTime seg.stop) ++ '\n' ::
    seg.text ++ ['\n', '\n']

/-- The SRT branch of `generateSubtitleData`: the loop over segments with a
running one-based index. -/
def generateSRTAux : Nat → List Segment → List Char
  | _, [] => []
  | i, seg :: rest => srtBlock i seg ++ generateSRTAux (i + 1) rest

def generateSRT (segments : List Segment) : List Char :=
  generateSRTAux 0 segments

def vttBlock (i : Nat) (seg : Segment) : List Char :=
  natToDigits (i + 1) ++ '\n' ::
    (formatVTTTime seg.start ++ ' ' :: '-' :: '-' :: '>' :: ' ' :: formatVTTTime seg.stop) ++ '\n' ::
    seg.text ++ ['\n', '\n']

def generateVTTAux : Nat → List Segment → List Char
  | _, [] => []
  | i, seg :: rest => vttBlock i seg ++ generateVTTAux (i + 1) rest

def generateVTT (segments : List Segment) : List Char :=
  "WEBVTT\n\n".toList ++ generateVTTAux 0 segments

/-- `generateSubtitleData`: renders per the configured format; any other
format is an error. -/
def generateSubtitleData (format : SubtitleFormat) (segments : List Segment) :
    Except (List Char) (List Char) :=
  match format with
  | .srt => .ok (generateSRT segments)
  | .vtt => .ok (generateVTT segments)
  | .none => .error ("unsupported subtitle format".toList)

/-- Oracle for the external ffmpeg run performed by
`embedSubtitleDataIntoVideo`: video bytes and subtitle text in, processed
video or failure out. -/
structure EmbedEnv where
  embedIntoVideo : List Nat → List Char → Except (List Char) (List Nat)

/-- `SubtitleEmbedder.EmbedSubtitles`: pass-through when the format is
`none` or there are no segments; otherwise render the markup and hand it to
the external embedder. -/
def EmbedSubtitles (env : EmbedEnv) (format : SubtitleFormat)
    (videoData : List Nat) (segments : List Segment) :
    Except (List Char) (List Nat) :=
  if format = SubtitleFormat.none ∨ segments = [] then .ok videoData
  else
    match generateSubtitleData format segments with
    | .error e => .error ("failed to generate subtitles: ".toList ++ e)
    | .ok subtitleBytes => env.embedIntoVideo videoData subtitleBytes

/-! ### `internal/translator` -/

def asciiToLower (c : Char) : Char :=
  if 'A' ≤ c ∧ c ≤ 'Z' then Char.ofNat (c.toNat + 32) else c

/-- `strings.ToLower` (ASCII fragment; language codes are ASCII). -/
def toLowerL (s : List Char) : List Char := s.map asciiToLower

/-- `normalizeLanguageCode`: lower-case, map the fixed regional table, else
strip everything from the first `-` on, else pass through. -/
def normalizeLanguageCode (lang : List Char) : List Char :=
  let l := toLowerL lang
  if l = "en-us".toList then "en".toList
  else if l = "en-gb".toList then "en".toList
  else if l = "de-de".toList then "de".toList
  else if l = "fr-fr".toList then "fr".toList
  else if l = "es-es".toList then "es".toList
  else if l = "it-it".toList then "it".toList
  else if l = "pt-br".toList then "pt".toList
  else if l = "pt-pt".toList then "pt".toList
  else if l = "ru-ru".toList then "ru".toList
  else if l = "zh-cn".toList then "zh".toList
  else if l = "zh-tw".toList then "zh".toList
  else if l = "ja-jp".toList then "ja".toList
  else if l = "ko-kr".toList then "ko".toList
  else if l.contains '-' then l.takeWhile (fun c => c ≠ '-')
  else l

/-- Oracles for the external argos processes: whether a normalized language
pair is installed (`checkLanguagePair`, whose per-process cache does not
change the outcome of a single call), whether translation is enabled, and
the text translation run itself. -/
structure TransEnv where
  enableTranslation : Bool
  pairAvailable : List Char → List Char → Bool
  translateText : List Char → Except (List Char) (List Char)

/-- One element of `TranslateSegments`' loop: copy the segment, replace only
`Text` by the translated text, keeping the original text when the external
run fails. -/
def translateSeg (env : TransEnv) (seg : Segment) : Segment :=
  { seg with
    text :=
      match env.translateText seg.text with
      | .ok t => t
      | .error _ => seg.text }

/-- `Translator.TranslateSegments`: returns the (possibly translated)
segments, an optional error (the Go function returns both a segment slice
and an error), and how many per-segment translation attempts were made. -/
def TranslateSegments (env : TransEnv) (segments : List Segment)
    (sourceLang targetLang : List Char) :
    List Segment × Option (List Char) × Nat :=
  if env.enableTranslation = false then (segments, Option.none, 0)
  else if sourceLang = targetLang then (segments, Option.none, 0)
  else
    let s := normalizeLanguageCode sourceLang
    let t := normalizeLanguageCode targetLang
    if env.pairAvailable s t = false then
      (segments, some ("translation model not available".toList), 0)
    else
      (segments.map (translateSeg env), Option.none, segments.length)

/-! ### `internal/streaming` : URL parsing -/

inductive StreamType where
  | twitch
  | youtube
  | custom
  deriving DecidableEq, Repr

structure StreamTarget where
  url : List Char
  type : StreamType
  streamKey : List Char
  authToken : List Char
  deriving DecidableEq, Repr

/-- `getStreamType`. -/
def getStreamType (typeStr : List Char) : StreamType :=
  let l := toLowerL typeStr
  if l = "twitch".toList then .twitch
  else if l = "youtube".toList then .youtube
  else .custom

/-- Result of `net/url.Parse` restricted to the
`scheme://host/path?query` shapes this repository feeds it. -/
structure GoURL where
  scheme : List Char
  host : List Char
  path : List Char
  rawQuery : List Char
  deriving DecidableEq, Repr

/-- Split at the first `://`, if any. -/
def breakScheme : List Char → Option (List Char × List Char)
  | ':' :: '/' :: '/' :: rest => some ([], rest)
  | c :: rest => (breakScheme rest).map (fun p => (c :: p.1, p.2))
  | [] => Option.none

/-- `net/url.Parse` (boundary model of the standard library for absolute
URLs of the form `scheme://host/path?query`; a URL without `://` parses to
an empty scheme and host with the whole input as path, matching the
relative-reference case). -/
def goURLParse (rawURL : List Char) : GoURL :=
  match breakScheme rawURL with
  | Option.none =>
    let beforeQ := (breakOnChar '?' rawURL).elim rawURL Prod.fst
    let query := (breakOnChar '?' rawURL).elim [] Prod.snd
    { scheme := [], host := [], path := beforeQ, rawQuery := query }
  | some (scheme, rest) =>
    let beforeQ := (breakOnChar '?' rest).elim rest Prod.fst
    let query := (breakOnChar '?' rest).elim [] Prod.snd
    { scheme := scheme
      host := beforeQ.takeWhile (fun c => c ≠ '/')
      path := beforeQ.dropWhile (fun c => c ≠ '/')
      rawQuery := query }

/-- `parsedURL.Query().Get("auth")`: first `auth` value, `""` if absent. -/
def queryGetAuth (rawQuery : List Char) : List Char :=
  ((splitOnChar '&' rawQuery).filterMap (fun kv =>
    match breakOnChar '=' kv with
    | some (k, v) => if k = "auth".toList then some v else Option.none
    | Option.none => Option.none)).headD []

/-- `strings.TrimPrefix s "/"`. -/
def trimSlashLeft (s : List Char) : List Char :=
  match s with
  | '/' :: rest => rest
  | _ => s

/-- `ParseStreamURL`. -/
def ParseStreamURL (inputURL : List Char) : Except (List Char) StreamTarget :=
  let parsedURL := goURLParse inputURL
  let path := trimSlashLeft parsedURL.path
  let pathParts := splitOnChar '/' path
  if pathParts.length < 2 then
    .error ("URL path must include streaming type and stream key".toList)
  else
    let streamType := getStreamType (pathParts.getD 0 [])
    let streamKey := pathParts.getD 1 []
    let authToken := queryGetAuth parsedURL.rawQuery
    let targetURL : List Char :=
      match streamType with
      | .twitch => "rtmp://live.twitch.tv/app/".toList ++ streamKey
      | .youtube => "rtmp://a.rtmp.youtube.com/live2/".toList ++ streamKey
      | .custom => parsedURL.scheme ++ "://".toList ++ parsedURL.host ++ parsedURL.path
    .ok { url := targetURL, type := streamType, streamKey := streamKey, authToken := authToken }

/-- Loop body of `parseTargetURLs`: fold over the comma-separated pieces,
skipping blank ones and aborting on the first invalid URL. -/
def parsePieces : List (List Char) → Except (List Char) (List StreamTarget)
  | [] => .ok []
  | piece :: rest =>
    let urlStr := trimSpace piece
    if urlStr = [] then parsePieces rest
    else
      match ParseStreamURL urlStr with
      | .error e => .error ("invalid target URL: ".toList ++ e)
      | .ok target =>
        match parsePieces rest with
        | .error e => .error e
        | .ok targets => .ok (target :: targets)

/-- `parseTargetURLs`. -/
def parseTargetURLs (targetURLs : List Char) : Except (List Char) (List StreamTarget) :=
  match parsePieces (splitOnChar ',' targetURLs) with
  | .error e => .error e
  | .ok targets =>
    if targets = [] then .error ("no valid target URLs provided".toList)
    else .ok targets

/-! ### `internal/streaming` : the Streamer

The Go `Streamer` keys its two maps (`persistentCmds`,
`persistentStdinPipes`) by target pointer; here targets are identified by
their index in the target list.  The outcome of each external write /
process spawn is supplied by a `WriteEnv` oracle. -/

structure StreamerState where
  targets : List StreamTarget
  cmdKeys : List Nat
  pipeKeys : List Nat
  initialized : Bool
  deriving DecidableEq, Repr

/-- `streaming.New`. -/
def newStreamer (targets : List StreamTarget) : StreamerState :=
  { targets := targets, cmdKeys := [], pipeKeys := [], initialized := false }

/-- One resource release performed by `Cleanup`/`cleanupTarget`:
closing a stdin pipe or signalling and reaping an ffmpeg process. -/
inductive ReleaseEvent where
  | closePipe (i : Nat)
  | killCmd (i : Nat)
  deriving DecidableEq, Repr

/-- `Streamer.Cleanup`: close and delete every pipe, kill and delete every
command, clear the initialized flag.  Returns the new state together with
the list of resources released by this call. -/
def Cleanup (s : StreamerState) : StreamerState × List ReleaseEvent :=
  ({ s with pipeKeys := [], cmdKeys := [], initialized := false },
   s.pipeKeys.map ReleaseEvent.closePipe ++ s.cmdKeys.map ReleaseEvent.killCmd)

/-- Oracle for the external effects of `Stream`/`Initialize`: per-target
success of the initial ffmpeg spawn and of the chunk write.  (The
tear-down-and-respawn after a failed write needs no oracle: that code is
unreachable — the goroutine deadlocks first, see `targetWrite`.) -/
structure WriteEnv where
  initOk : Nat → Bool
  writeOk : Nat → Bool

/-- The `sync.Mutex` `s.mu` is not reentrant, so several paths of the Go
`Streamer` re-acquire a lock the same call already holds and block
forever.  A call either returns a value or deadlocks. -/
inductive GoOutcome (α : Type) where
  | returns (a : α)
  | deadlock

/-- `Streamer.Initialize`: no-op when already initialized; error when there
are no targets; otherwise initialize every target.  If any target fails,
the code calls `s.Cleanup()` while still holding `s.mu` (streaming.go:118),
and `Cleanup` re-locks `s.mu` (streaming.go:233): the partial-failure path
self-deadlocks instead of returning its "initialization errors". -/
def Initialize (env : WriteEnv) (s : StreamerState) :
    GoOutcome (Except (List Char) StreamerState) :=
  if s.initialized then .returns (.ok s)
  else if s.targets = [] then
    .returns (.error ("no streaming targets specified".toList))
  else
    let idx := List.range s.targets.length
    let okIdx := idx.filter (fun i => env.initOk i)
    if okIdx.length = idx.length then
      .returns (.ok { s with cmdKeys := okIdx, pipeKeys := okIdx, initialized := true })
    else .deadlock

/-- What happens inside the per-target goroutine of `Stream` for target `i`:
the write succeeds; or there is no pipe (an error is sent and the goroutine
finishes); or the write fails — then the goroutine sends the write error
and calls `s.mu.Lock()` (streaming.go:205) against the lock `Stream` holds
across `wg.Wait()`, so it blocks forever and the tear-down/reinitialization
after it never runs. -/
inductive WriteOutcome where
  | delivered
  | noPipe
  | failedBlocked
  deriving DecidableEq, Repr

def targetWrite (env : WriteEnv) (s : StreamerState) (i : Nat) : WriteOutcome :=
  if i ∈ s.pipeKeys then
    if env.writeOk i then .delivered else .failedBlocked
  else .noPipe

/-- The error strings a single target's goroutine pushes on `errCh` before
finishing or blocking, tagged with the target's index. -/
def targetErrors (env : WriteEnv) (s : StreamerState) (i : Nat) :
    List (Nat × List Char) :=
  match targetWrite env s i with
  | .delivered => []
  | .noPipe => [(i, "no stdin pipe for target".toList)]
  | .failedBlocked => [(i, "error writing to target".toList)]

/-- Indices whose stdin pipe receives a `Write` call (one per target that
has a pipe; a missing pipe short-circuits before any write). -/
def streamAttempts (s : StreamerState) : List Nat :=
  (List.range s.targets.length).filter (fun i => decide (i ∈ s.pipeKeys))

/-- Indices whose write call succeeds, i.e. targets that received the chunk. -/
def streamDelivered (env : WriteEnv) (s : StreamerState) : List Nat :=
  (List.range s.targets.length).filter
    (fun i => decide (i ∈ s.pipeKeys) && env.writeOk i)

/-- All errors pushed on `errCh` (indexed by target, in target order; the
Go channel order is a permutation of this). -/
def streamErrors (env : WriteEnv) (s : StreamerState) : List (Nat × List Char) :=
  ((List.range s.targets.length).map (targetErrors env s)).flatten

/-- Whether some per-target goroutine blocks on `s.mu.Lock()` after a
failed write — then its deferred `wg.Done()` never runs and `wg.Wait()`
never returns. -/
def streamBlocked (env : WriteEnv) (s : StreamerState) : Bool :=
  (List.range s.targets.length).any
    (fun i => decide (i ∈ s.pipeKeys) && !env.writeOk i)

/-- `Streamer.Stream` on an initialized streamer: write to every target
concurrently.  If any write fails, its goroutine blocks re-acquiring the
mutex `Stream` holds across `wg.Wait()` (streaming.go:174-216,205), so
`Stream` never returns; otherwise the collected errors (only missing-pipe
ones are possible) are aggregated. -/
def streamWrites (env : WriteEnv) (s : StreamerState) :
    GoOutcome (Except (List (Nat × List Char)) Unit) :=
  if streamBlocked env s then .deadlock
  else if streamErrors env s = [] then .returns (.ok ())
  else .returns (.error (streamErrors env s))

/-- `Streamer.Stream` including the lazy-initialization path: when the
streamer is not yet initialized, `Stream` holds `s.mu` (streaming.go:174)
and calls `s.Initialize()` (streaming.go:178), which immediately re-locks
`s.mu` (streaming.go:97) — a self-deadlock on every such call, before the
zero-target check is ever reached. -/
def Stream (env : WriteEnv) (s : StreamerState) :
    GoOutcome (Except (List (Nat × List Char)) Unit) :=
  if s.initialized then streamWrites env s
  else .deadlock

/-! ### `internal/proxy` : the per-chunk processing goroutine -/

/-- The two per-session language settings consulted by the chunk goroutine
(`rtmpConnection.sourceLang` / `targetLang`). -/
structure ConnLangs where
  sourceLang : List Char
  targetLang : List Char

/-- Oracles for the external runs made while processing one chunk:
the transcription attempt (indexed by retry number), the translator
environment, and the embedding ffmpeg run (indexed by retry number). -/
structure ProcEnv where
  transcribe : Nat → Except (List Char) (List Segment)
  trans : TransEnv
  embedTry : Nat → List Nat → List Char → Except (List Char) (List Nat)

/-- The bounded-retry loop `for i := 0; i < maxRetries; i++` with
`maxRetries = 3`: result of the last attempt made, plus how many attempts
were made (a success breaks out early). -/
def retry3 (f : Nat → Except (List Char) α) : Except (List Char) α × Nat :=
  match f 0 with
  | .ok a => (.ok a, 1)
  | .error _ =>
    match f 1 with
    | .ok a => (.ok a, 2)
    | .error _ => (f 2, 3)

/-- Everything observable about one run of the per-chunk goroutine in
`processFFmpegOutput`: the video bytes pushed to `processedChunks`, how many
external invocations of each kind were made, the error-level diagnostics
logged, and whether the session was terminated (it never is). -/
structure ChunkResult where
  output : List Nat
  transcribeCalls : Nat
  translateInvoked : Bool
  embedCalls : Nat
  diagnostics : List (List Char)
  fatal : Bool
  deriving DecidableEq, Repr

/-- The per-chunk goroutine body (proxy.go, the closure spawned per audio
chunk): small-chunk fast path, transcription with 3 retries, optional
translation, subtitle embedding with 3 retries, each failure degrading to
the unmodified video chunk. -/
def processChunk (env : ProcEnv) (conn : ConnLangs) (format : SubtitleFormat)
    (audio video : List Nat) : ChunkResult :=
  if audio.length < 1000 ∨ video.length < 1000 then
    { output := video, transcribeCalls := 0, translateInvoked := false,
      embedCalls := 0, diagnostics := [], fatal := false }
  else
    match retry3 env.transcribe with
    | (.error _, n) =>
      { output := video, transcribeCalls := n, translateInvoked := false,
        embedCalls := 0,
        diagnostics := ["chunk transcription failed after retries".toList],
        fatal := false }
    | (.ok segments0, n) =>
      let doTranslate := conn.targetLang ≠ [] ∧ conn.targetLang ≠ conn.sourceLang
      let afterTranslate : List Segment × List (List Char) :=
        if doTranslate then
          match TranslateSegments env.trans segments0 conn.sourceLang conn.targetLang with
          | (_, some _, _) =>
            (segments0, ["translation failed, using original transcription".toList])
          | (translated, Option.none, _) => (translated, [])
        else (segments0, [])
      match retry3 (fun i => EmbedSubtitles ⟨env.embedTry i⟩ format video afterTranslate.1) with
      | (.error _, k) =>
        { output := video, transcribeCalls := n,
          translateInvoked := decide doTranslate, embedCalls := k,
          diagnostics := afterTranslate.2 ++
            ["failed to embed subtitles after retries".toList],
          fatal := false }
      | (.ok processedVideo, k) =>
        { output := processedVideo, transcribeCalls := n,
          translateInvoked := decide doTranslate, embedCalls := k,
          diagnostics := afterTranslate.2, fatal := false }

/-! ### A compatible SRT reader (spec-modelled)

The repository renders SRT but contains no SRT reader: its only transcript
reader, `parseTranscript`, follows the bracketed single-line grammar
`[HH:MM:SS --> HH:MM:SS] text`.  The spec's round-trip property speaks of
re-parsing "by a compatible reader", so the reader below is
`Modelled from the spec:` a parser for the SubRip text produced by
`generateSubtitleData` — cue index line, `HH:MM:SS,mmm --> HH:MM:SS,mmm`
time line, one text line, blank separator line. -/

/-- Modelled from the spec: read one `HH:MM:SS,mmm` SRT timestamp
(the repository has no SRT timestamp reader). -/
def parseSRTTimeToken (tok : List Char) : Option ℚ :=
  match splitOnChar ':' tok with
  | [hh, mm, rest] =>
    match splitOnChar ',' rest with
    | [ss, mmm] =>
      match parseNatDigits hh, parseNatDigits mm, parseNatDigits ss, parseNatDigits mmm with
      | some h, some m, some s, some ms =>
        some ((h : ℚ) * 3600 + (m : ℚ) * 60 + (s : ℚ) + (ms : ℚ) / 1000)
      | _, _, _, _ => Option.none
    | _ => Option.none
  | _ => Option.none

/-- Modelled from the spec: read an SRT cue time line
`start --> end` (tokens separated by single spaces). -/
def parseSRTTimeLine (line : List Char) : Option (ℚ × ℚ) :=
  match splitOnChar ' ' line with
  | [t1, ar, t2] =>
    if ar = "-->".toList then
      match parseSRTTimeToken t1, parseSRTTimeToken t2 with
      | some a, some b => some (a, b)
      | _, _ => Option.none
    else Option.none
  | _ => Option.none

/-- Modelled from the spec: read SRT cues from a list of lines — skip blank
lines, then take an index line, a time line and a single text line per cue. -/
def parseSRTLines : List (List Char) → List (ℚ × ℚ × List Char)
  | [] => []
  | line :: rest =>
    if trimSpace line = [] then parseSRTLines rest
    else
      match rest with
      | timeLine :: textLine :: rest2 =>
        match parseSRTTimeLine timeLine with
        | some p => (p.1, p.2, textLine) :: parseSRTLines rest2
        | Option.none => parseSRTLines rest2
      | _ => []

/-- Modelled from the spec: the compatible SRT reader on a whole document. -/
def parseSRTText (s : List Char) : List (ℚ × ℚ × List Char) :=
  parseSRTLines (splitOnChar '\n' s)

/-- Truncation of a time to whole milliseconds — the loss incurred by SRT's
`HH:MM:SS,mmm` rendering. -/
def srtRound (q : ℚ) : ℚ := ((⌊q * 1000⌋ : ℤ) : ℚ) / 1000

/-- `formatSRTTime` re-expressed over a non-negative nanosecond count
(bridge form used by the round-trip proof). -/
def srtOfNs (ns : Nat) : List Char :=
  pad2 (ns / 3600000000000) ++ ':' ::
    pad2 (ns / 60000000000 % 60) ++ ':' ::
    pad2 (ns / 1000000000 % 60) ++ ',' ::
    pad3 (ns / 1000000 % 1000)

/-! ### Concrete sample data used by the witnesses -/

def sampleTransEnvOff : TransEnv :=
  { enableTranslation := false
    pairAvailable := fun _ _ => false
    translateText := fun t => .ok t }

def sampleTransEnvOn : TransEnv :=
  { enableTranslation := true
    pairAvailable := fun _ _ => true
    translateText := fun t => .ok ('x' :: t) }

def sampleProcEnvFail : ProcEnv :=
  { transcribe := fun _ => .error ("transcription failed".toList)
    trans := sampleTransEnvOff
    embedTry := fun _ _ _ => .error ("ffmpeg failed".toList) }

def sampleSegment : Segment :=
  { id := 0, start := 1, stop := 2, text := "hello world".toList, timestamp := [] }

def sampleEmbedEnv : EmbedEnv :=
  { embedIntoVideo := fun v _ => .ok (7 :: v) }

def sampleTarget : StreamTarget :=
  { url := "rtmp://live.twitch.tv/app/KEY".toList
    type := .twitch
    streamKey := "KEY".toList
    authToken := [] }

def sampleStreamerTwo : StreamerState :=
  { targets := [sampleTarget, sampleTarget]
    cmdKeys := [0, 1]
    pipeKeys := [0, 1]
    initialized := true }

/-- Writes succeed on target 0 and fail on target 1. -/
def sampleWriteEnv : WriteEnv :=
  { initOk := fun _ => true
    writeOk := fun i => i = 0 }

/-- An environment in which every spawn and write succeeds. -/
def sampleWriteEnvOk : WriteEnv :=
  { initOk := fun _ => true
    writeOk := fun _ => true }

/-! ## Theorems -/

/-- C6: calling `Cleanup` twice in succession leaves the Streamer in the
same `Uninitialized` state after each call — empty command map, empty
stdin-pipe map, `initialized` flag false — and the second call releases no
resource at all (in particular none that the first call already released). -/
theorem cleanup_idempotent_c6 (s : StreamerState) :
    (Cleanup s).1.pipeKeys = [] ∧ (Cleanup s).1.cmdKeys = [] ∧
    (Cleanup s).1.initialized = false ∧
    (Cleanup (Cleanup s).1).1 = (Cleanup s).1 ∧
    (Cleanup (Cleanup s).1).2 = [] := by
  simp [Cleanup]

/-- C2: when the audio or the video payload of a chunk pair is smaller than
1000 bytes, the per-chunk goroutine forwards the video chunk unmodified to
the delivery queue (`output = video`), performs no transcription,
translation or subtitle-embedding invocation (all call counters zero, and
the result does not depend on the external oracles at all), and reports no
error (`diagnostics = []`, `fatal = false`). -/
theorem small_chunk_passthrough_c2 (env env' : ProcEnv) (conn : ConnLangs)
    (format : SubtitleFormat) (audio video : List Nat)
    (h : audio.length < 1000 ∨ video.length < 1000) :
    processChunk env conn format audio video =
      { output := video, transcribeCalls := 0, translateInvoked := false,
        embedCalls := 0, diagnostics := [], fatal := false } ∧
    processChunk env conn format audio video =
      processChunk env' conn format audio video := by
  unfold processChunk
  rw [if_pos h, if_pos h]
  exact ⟨rfl, rfl⟩

theorem small_chunk_passthrough_c2_witness :
    processChunk sampleProcEnvFail ⟨"en".toList, "es".toList⟩ .srt [] [0, 1, 2] =
      { output := [0, 1, 2], transcribeCalls := 0, translateInvoked := false,
        embedCalls := 0, diagnostics := [], fatal := false } :=
  (small_chunk_passthrough_c2 sampleProcEnvFail sampleProcEnvFail
    ⟨"en".toList, "es".toList⟩ .srt [] [0, 1, 2] (Or.inl (by decide))).1

/-- C3: when every one of the 3 bounded transcription attempts fails, the
per-chunk goroutine emits the unmodified video chunk to the delivery queue
(`output = video`, not dropped), made exactly 3 transcription attempts,
reports the failure as a diagnostic, and does not terminate the session
(`fatal = false`). -/
theorem transcribe_retry_fallback_c3 (env : ProcEnv) (conn : ConnLangs)
    (format : SubtitleFormat) (audio video : List Nat)
    (hA : 1000 ≤ audio.length) (hV : 1000 ≤ video.length)
    (hfail : ∀ i, i < 3 → ∃ e, env.transcribe i = .error e) :
    processChunk env conn format audio video =
      { output := video, transcribeCalls := 3, translateInvoked := false,
        embedCalls := 0,
        diagnostics := ["chunk transcription failed after retries".toList],
        fatal := false } := by
  obtain ⟨e0, h0⟩ := hfail 0 (by omega)
  obtain ⟨e1, h1⟩ := hfail 1 (by omega)
  obtain ⟨e2, h2⟩ := hfail 2 (by omega)
  have hbig : ¬(audio.length < 1000 ∨ video.length < 1000) := by omega
  simp [processChunk, retry3, hbig, h0, h1, h2]

theorem transcribe_retry_fallback_c3_witness :
    processChunk sampleProcEnvFail ⟨"en".toList, "es".toList⟩ .srt
        (List.replicate 1000 0) (List.replicate 1200 1) =
      { output := List.replicate 1200 1, transcribeCalls := 3,
        translateInvoked := false, embedCalls := 0,
        diagnostics := ["chunk transcription failed after retries".toList],
        fatal := false } :=
  transcribe_retry_fallback_c3 sampleProcEnvFail ⟨"en".toList, "es".toList⟩ .srt
    (List.replicate 1000 0) (List.replicate 1200 1)
    (by simp only [List.length_replicate]; omega)
    (by simp only [List.length_replicate]; omega)
    (fun i _ => ⟨"transcription failed".toList, rfl⟩)

/-- C4: `EmbedSubtitles` returns the input video bytes unchanged and no
error whenever the subtitle format is `none` or the segment list is empty
(and then does not consult the external embedder at all); only when the
format is not `none` and there is at least one segment does it render the
subtitle markup and hand it, with the video, to the embedding run. -/
theorem embed_guard_c4 (env env' : EmbedEnv) (format : SubtitleFormat)
    (video : List Nat) (segments : List Segment) :
    (format = SubtitleFormat.none ∨ segments = [] →
      EmbedSubtitles env format video segments = .ok video ∧
      EmbedSubtitles env format video segments =
        EmbedSubtitles env' format video segments) ∧
    (format ≠ SubtitleFormat.none → segments ≠ [] →
      ∃ markup, generateSubtitleData format segments = .ok markup ∧
        EmbedSubtitles env format video segments =
          env.embedIntoVideo video markup) := by
  constructor
  · intro h
    unfold EmbedSubtitles
    rw [if_pos h, if_pos h]
    exact ⟨rfl, rfl⟩
  · intro hf hs
    have hcond : ¬(format = SubtitleFormat.none ∨ segments = []) := by tauto
    unfold EmbedSubtitles
    rw [if_neg hcond]
    cases format with
    | srt => exact ⟨_, rfl, rfl⟩
    | vtt => exact ⟨_, rfl, rfl⟩
    | none => exact absurd rfl hf

theorem embed_guard_c4_witness :
    EmbedSubtitles sampleEmbedEnv SubtitleFormat.none [1] [sampleSegment] = .ok [1] :=
  ((embed_guard_c4 sampleEmbedEnv sampleEmbedEnv SubtitleFormat.none [1]
    [sampleSegment]).1 (Or.inl rfl)).1

/-- C5: `TranslateSegments` returns a list of the same length in which every
segment's `ID`, `Start`, `End` and `Timestamp` fields equal those of the
corresponding input segment (the `Forall₂` below implies equal lengths and
is index-wise); a per-segment translation failure keeps that segment's
original text; in the chunk pipeline the translation step is invoked only
when a target language is configured and differs from the source language;
and a translation failure is non-fatal: the session continues (`fatal`
never set) and the delivered bytes are the ones produced from the
untranslated segments. -/
theorem translate_frame_c5 :
    (∀ (env : TransEnv) (segments : List Segment) (sl tl : List Char),
      List.Forall₂
        (fun a b => b.id = a.id ∧ b.start = a.start ∧ b.stop = a.stop ∧
          b.timestamp = a.timestamp)
        segments (TranslateSegments env segments sl tl).1) ∧
    (∀ (env : TransEnv) (seg : Segment) (e : List Char),
      env.translateText seg.text = .error e → translateSeg env seg = seg) ∧
    (∀ (penv : ProcEnv) (conn : ConnLangs) (format : SubtitleFormat)
        (audio video : List Nat),
      ((processChunk penv conn format audio video).translateInvoked = true →
        conn.targetLang ≠ [] ∧ conn.targetLang ≠ conn.sourceLang) ∧
      (processChunk penv conn format audio video).fatal = false) ∧
    (∀ (penv : ProcEnv) (conn : ConnLangs) (format : SubtitleFormat)
        (audio video : List Nat),
      penv.trans.pairAvailable (normalizeLanguageCode conn.sourceLang)
          (normalizeLanguageCode conn.targetLang) = false →
      (processChunk penv conn format audio video).output =
        (processChunk
          { penv with trans := { penv.trans with enableTranslation := false } }
          conn format audio video).output) := by
  have hsame : ∀ (l : List Segment),
      List.Forall₂
        (fun a b => b.id = a.id ∧ b.start = a.start ∧ b.stop = a.stop ∧
          b.timestamp = a.timestamp) l l :=
    fun l => List.forall₂_same.mpr (fun x _ => ⟨rfl, rfl, rfl, rfl⟩)
  refine ⟨?_, ?_, ?_, ?_⟩
  · intro env segments sl tl
    simp only [TranslateSegments]
    by_cases h1 : env.enableTranslation = false
    · rw [if_pos h1]; exact hsame segments
    · rw [if_neg h1]
      by_cases h2 : sl = tl
      · rw [if_pos h2]; exact hsame segments
      · rw [if_neg h2]
        by_cases h3 : env.pairAvailable (normalizeLanguageCode sl)
            (normalizeLanguageCode tl) = false
        · rw [if_pos h3]; exact hsame segments
        · rw [if_neg h3]
          exact List.forall₂_map_right_iff.mpr
            (List.forall₂_same.mpr (fun x _ => ⟨rfl, rfl, rfl, rfl⟩))
  · intro env seg e h
    simp [translateSeg, h]
  · intro penv conn format audio video
    constructor
    · intro h
      simp only [processChunk] at h
      split at h
      · exact absurd h (by simp)
      · split at h
        · exact absurd h (by simp)
        · split at h
          · simp only at h
            exact of_decide_eq_true h
          · simp only at h
            exact of_decide_eq_true h
    · simp only [processChunk]
      split
      · rfl
      · split
        · rfl
        · split
          · rfl
          · rfl
  · intro penv conn format audio video hpair
    simp only [processChunk]
    by_cases hsmall : audio.length < 1000 ∨ video.length < 1000
    · rw [if_pos hsmall, if_pos hsmall]
    · rw [if_neg hsmall, if_neg hsmall]
      have henv : ({ penv with trans := { penv.trans with enableTranslation := false } }
          : ProcEnv).transcribe = penv.transcribe := rfl
      rw [henv]
      rcases hr : retry3 penv.transcribe with ⟨res, n⟩
      cases res with
      | error e => simp
      | ok segs0 =>
        have hR : TranslateSegments
            ({ penv.trans with enableTranslation := false } : TransEnv)
            segs0 conn.sourceLang conn.targetLang = (segs0, Option.none, 0) := by
          simp [TranslateSegments]
        have hfull : TranslateSegments penv.trans segs0 conn.sourceLang conn.targetLang
            = (segs0, Option.none, 0) ∨
            TranslateSegments penv.trans segs0 conn.sourceLang conn.targetLang
            = (segs0, some ("translation model not available".toList), 0) := by
          simp only [TranslateSegments]
          by_cases h1 : penv.trans.enableTranslation = false
          · left; rw [if_pos h1]
          · rw [if_neg h1]
            by_cases h2 : conn.sourceLang = conn.targetLang
            · left; rw [if_pos h2]
            · right; rw [if_neg h2, if_pos hpair]
        by_cases hdo : conn.targetLang ≠ [] ∧ conn.targetLang ≠ conn.sourceLang
        · rcases hfull with hN | hS
          · simp only [if_pos hdo, hN, hR]
          · simp only [if_pos hdo, hS, hR]
            rcases hE : retry3
              (fun i => EmbedSubtitles { embedIntoVideo := penv.embedTry i }
                format video segs0) with ⟨r2, k⟩
            cases r2 <;> simp
        · simp only [if_neg hdo]

theorem translate_frame_c5_witness :
    List.Forall₂
      (fun a b => b.id = a.id ∧ b.start = a.start ∧ b.stop = a.stop ∧
        b.timestamp = a.timestamp)
      [sampleSegment]
      (TranslateSegments sampleTransEnvOn [sampleSegment]
        "en".toList "es".toList).1 :=
  translate_frame_c5.1 sampleTransEnvOn [sampleSegment] "en".toList "es".toList

/-- C1: what holds of the code and where the code diverges from the claim.
On an initialized Streamer whose every target has a stdin pipe,
`Stream(chunk)` makes exactly one write attempt per target
(`streamAttempts` is the whole index range, of length N); whether target
`i` receives the chunk depends only on its own write outcome, so failures
of any strict subset of the other targets cannot prevent its delivery; the
errors pushed on `errCh` name exactly the targets that failed; and when
every write succeeds the call returns nil.  But when any write fails,
`Stream` does NOT return the claim's aggregated error: the failing
target's goroutine re-locks `s.mu`, which `Stream` holds across
`wg.Wait()`, so the call deadlocks and the teardown/reinitialization and
error return — the behaviour the spec (§4.4, Scenario C) and the code's
own `Try to reinitialize` comment intend — are unreachable.  The
successful targets have nevertheless already received the chunk. -/
theorem stream_fanout_c1 (env : WriteEnv) (s : StreamerState)
    (hInit : s.initialized = true)
    (hPipes : ∀ i, i < s.targets.length → i ∈ s.pipeKeys) :
    streamAttempts s = List.range s.targets.length ∧
    (∀ i, i < s.targets.length →
      (i ∈ streamDelivered env s ↔ env.writeOk i = true)) ∧
    (∀ env' : WriteEnv, ∀ i, i < s.targets.length → env'.writeOk i = env.writeOk i →
      ((i ∈ streamDelivered env' s ↔ i ∈ streamDelivered env s))) ∧
    ((∀ i, i < s.targets.length → env.writeOk i = true) →
      Stream env s = .returns (.ok ())) ∧
    (∀ i, i < s.targets.length → env.writeOk i = false →
      Stream env s = GoOutcome.deadlock ∧
      (∀ j, j < s.targets.length → env.writeOk j = true →
        j ∈ streamDelivered env s)) ∧
    (∀ j m, (j, m) ∈ streamErrors env s →
      j < s.targets.length ∧ env.writeOk j = false) ∧
    (∀ j, j < s.targets.length → env.writeOk j = false →
      ∃ m, (j, m) ∈ streamErrors env s) := by
  have hDeliv : ∀ (e : WriteEnv) (i : Nat), i < s.targets.length →
      (i ∈ streamDelivered e s ↔ e.writeOk i = true) := by
    intro e i hi
    unfold streamDelivered
    rw [List.mem_filter]
    simp [List.mem_range, hi, hPipes i hi]
  have hTWok : ∀ j, j < s.targets.length → env.writeOk j = true →
      targetErrors env s j = [] := by
    intro j hj hw
    simp [targetErrors, targetWrite, hPipes j hj, hw]
  have hTWfail : ∀ j, j < s.targets.length → env.writeOk j = false →
      targetErrors env s j = [(j, "error writing to target".toList)] := by
    intro j hj hw
    simp [targetErrors, targetWrite, hPipes j hj, hw]
  have hmem : ∀ j m, (j, m) ∈ streamErrors env s ↔
      ∃ a, a ∈ List.range s.targets.length ∧ (j, m) ∈ targetErrors env s a := by
    intro j m
    unfold streamErrors
    simp [List.mem_flatten, List.mem_map]
  refine ⟨?_, fun i hi => hDeliv env i hi, ?_, ?_, ?_, ?_, ?_⟩
  · unfold streamAttempts
    apply List.filter_eq_self.mpr
    intro a ha
    exact decide_eq_true (hPipes a (List.mem_range.mp ha))
  · intro env' i hi hw
    rw [hDeliv env' i hi, hDeliv env i hi, hw]
  · intro hall
    have hblk : streamBlocked env s = false := by
      unfold streamBlocked
      rw [List.any_eq_false]
      intro i hi
      simp [hall i (List.mem_range.mp hi)]
    have hnil : streamErrors env s = [] := by
      unfold streamErrors
      apply List.flatten_eq_nil_iff.mpr
      intro l hl
      obtain ⟨a, ha, rfl⟩ := List.mem_map.mp hl
      exact hTWok a (List.mem_range.mp ha) (hall a (List.mem_range.mp ha))
    rw [Stream, if_pos hInit, streamWrites, hblk, hnil]
    rfl
  · intro i hi hw
    have hblk : streamBlocked env s = true := by
      unfold streamBlocked
      rw [List.any_eq_true]
      exact ⟨i, List.mem_range.mpr hi,
        by simp [hPipes i hi, hw]⟩
    constructor
    · rw [Stream, if_pos hInit, streamWrites, hblk]
      rfl
    · intro j hj hwj
      exact (hDeliv env j hj).mpr hwj
  · intro j m hjm
    obtain ⟨a, ha, hl⟩ := (hmem j m).mp hjm
    have haN := List.mem_range.mp ha
    by_cases hwa : env.writeOk a = true
    · rw [hTWok a haN hwa] at hl
      exact absurd hl (List.not_mem_nil _)
    · rw [hTWfail a haN (by simpa using hwa)] at hl
      simp only [List.mem_cons, List.not_mem_nil, or_false] at hl
      obtain ⟨rfl, -⟩ := Prod.mk.injEq .. ▸ hl
      exact ⟨haN, by simpa using hwa⟩
  · intro j hj hwj
    refine ⟨"error writing to target".toList, ?_⟩
    rw [hmem]
    exact ⟨j, List.mem_range.mpr hj,
      by rw [hTWfail j hj hwj]; exact List.mem_cons_self _ _⟩

theorem stream_fanout_c1_witness :
    streamAttempts sampleStreamerTwo = [0, 1] ∧
    0 ∈ streamDelivered sampleWriteEnv sampleStreamerTwo ∧
    Stream sampleWriteEnv sampleStreamerTwo = GoOutcome.deadlock ∧
    Stream sampleWriteEnvOk sampleStreamerTwo = .returns (.ok ()) := by
  have hp : ∀ i, i < sampleStreamerTwo.targets.length →
      i ∈ sampleStreamerTwo.pipeKeys := by
    intro i hi
    have h2 : i < 2 := by simpa [sampleStreamerTwo] using hi
    simp only [sampleStreamerTwo, List.mem_cons, List.not_mem_nil, or_false]
    omega
  have h := stream_fanout_c1 sampleWriteEnv sampleStreamerTwo rfl hp
  have h2 := stream_fanout_c1 sampleWriteEnvOk sampleStreamerTwo rfl hp
  exact ⟨h.1, (h.2.1 0 (by decide)).mpr (by decide),
    (h.2.2.2.2.1 1 (by decide) (by decide)).1,
    h2.2.2.2.1 (fun i _ => rfl)⟩

/-! ### Helper lemmas on the character-list utilities -/

theorem splitOnChar_ne_nil (sep : Char) (s : List Char) :
    splitOnChar sep s ≠ [] := by
  induction s with
  | nil => simp [splitOnChar]
  | cons c rest ih =>
    cases h : splitOnChar sep rest with
    | nil => exact absurd h ih
    | cons cur more =>
      simp only [splitOnChar, h]
      split <;> simp

theorem all_of_mem_splitOnChar {p : Char → Bool} {sep : Char} {s : List Char}
    (hs : s.all p = true) :
    ∀ t ∈ splitOnChar sep s, t.all p = true := by
  induction s with
  | nil =>
    intro t ht
    simp [splitOnChar] at ht
    simp [ht]
  | cons c rest ih =>
    intro t ht
    simp only [List.all_cons, Bool.and_eq_true] at hs
    cases h : splitOnChar sep rest with
    | nil => exact absurd h (splitOnChar_ne_nil sep rest)
    | cons cur more =>
      simp only [splitOnChar, h] at ht
      split at ht
      · rcases List.mem_cons.mp ht with rfl | ht
        · rfl
        · exact ih hs.2 t (by rw [h]; exact ht)
      · rcases List.mem_cons.mp ht with rfl | ht
        · have hcur : cur.all p = true := ih hs.2 cur (by rw [h]; exact List.mem_cons_self _ _)
          simp [hs.1, hcur]
        · exact ih hs.2 t (by rw [h]; exact List.mem_cons_of_mem _ ht)

theorem trimSpace_all_space {s : List Char} (hs : s.all goIsSpace = true) :
    trimSpace s = [] := by
  unfold trimSpace
  have h1 : s.dropWhile goIsSpace = [] :=
    List.dropWhile_eq_nil_iff.mpr (fun x hx => by
      have := List.all_eq_true.mp hs x hx
      exact this)
  rw [h1]
  rfl

theorem parsePieces_blank {pieces : List (List Char)}
    (hp : ∀ t ∈ pieces, trimSpace t = []) :
    parsePieces pieces = .ok [] := by
  induction pieces with
  | nil => rfl
  | cons t rest ih =>
    simp only [parsePieces, hp t (List.mem_cons_self _ _), if_pos]
    exact ih (fun u hu => hp u (List.mem_cons_of_mem _ hu))

/-- C9: what holds of the code and where the code diverges from the claim.
For an empty or all-whitespace target string, target parsing fails with the
"no valid targets" error (in `processFFmpegOutput` this error is hit before
any chunk is read, and the processing goroutine returns — fatal to the
session).  A Streamer constructed with zero targets never attempts any
delivery (`streamAttempts` is empty), and a direct `Initialize` call on it
returns the "no streaming targets specified" error.  But `Stream` itself
does NOT return that error as the claim states: its lazy-initialization
path calls `s.Initialize()` (streaming.go:178) while `Stream` already
holds `s.mu` (line 174), and `Initialize` re-locks the same non-reentrant
mutex (line 97), so the call self-deadlocks and never returns. -/
theorem empty_targets_fatal_c9 (ts : List Char) (env : WriteEnv)
    (h : ts.all goIsSpace = true) :
    parseTargetURLs ts = .error ("no valid target URLs provided".toList) ∧
    Initialize env (newStreamer []) =
      .returns (.error ("no streaming targets specified".toList)) ∧
    Stream env (newStreamer []) = GoOutcome.deadlock ∧
    streamAttempts (newStreamer []) = [] := by
  refine ⟨?_, by rfl, by rfl, by rfl⟩
  have hp : ∀ t ∈ splitOnChar ',' ts, trimSpace t = [] := fun t ht =>
    trimSpace_all_space (all_of_mem_splitOnChar h t ht)
  unfold parseTargetURLs
  rw [parsePieces_blank hp]
  rfl

theorem empty_targets_fatal_c9_witness :
    parseTargetURLs "  ".toList = .error ("no valid target URLs provided".toList) ∧
    Stream sampleWriteEnv (newStreamer []) = GoOutcome.deadlock :=
  ⟨(empty_targets_fatal_c9 "  ".toList sampleWriteEnv (by decide)).1,
   (empty_targets_fatal_c9 "  ".toList sampleWriteEnv (by decide)).2.2.1⟩

/-- C10: `parseTranscript` is total and purely skipping: it returns at most
one segment per input line and never fails; a blank line yields no segment;
a line that does not split into at least three space-separated parts yields
no segment; a line whose bracket-trimmed first part does not split on `-->`
into exactly two pieces yields no segment; a timestamp without exactly
three `:`-separated fields parses to value `0` (with the error flag the
caller ignores); and a field whose `%f` scan fails leaves the
zero-initialized variable at `0`.  Concretely: the digit-free timestamp
`aa:bb:cc` parses to `0`; `inf:00:01` scans — `inf` is a valid `%f`
input — to `+Inf`; and `01:02:03.5` parses to `3723.5` seconds. -/
theorem parse_transcript_total_c10 :
    (∀ t, (parseTranscript t).length ≤ (splitOnChar '\n' t).length) ∧
    (∀ i line, trimSpace line = [] → parseLine i line = Option.none) ∧
    (∀ i line, (splitN3 ' ' line).length < 3 → parseLine i line = Option.none) ∧
    (∀ i line,
      (splitOnArrow (trimBrackets ((splitN3 ' ' line).getD 0 []))).length ≠ 2 →
      parseLine i line = Option.none) ∧
    (∀ ts, (splitOnChar ':' ts).length ≠ 3 →
      parseTimestamp ts = (GoFloat.finite 0, true)) ∧
    (∀ s, goScanFloat s = Option.none → sscanfFloatF s = GoFloat.finite 0) ∧
    parseTimestamp "aa:bb:cc".toList = (GoFloat.finite 0, false) ∧
    parseTimestamp "inf:00:01".toList = (GoFloat.posInf, false) ∧
    parseTimestamp "01:02:03.5".toList = (GoFloat.finite (7447 / 2), false) := by
  refine ⟨?_, ?_, ?_, ?_, ?_, ?_, ?_, by rfl, ?_⟩
  · intro t
    calc (parseTranscript t).length
        ≤ ((splitOnChar '\n' t).enum.map (fun p => parseLine p.1 p.2)).length :=
          List.reduceOption_length_le _
      _ = (splitOnChar '\n' t).length := by
          rw [List.length_map, List.enum_length]
  · intro i line h
    simp [parseLine, h]
  · intro i line h
    by_cases htrim : trimSpace line = []
    · simp [parseLine, htrim]
    · simp [parseLine, htrim, h]
  · intro i line h
    by_cases htrim : trimSpace line = []
    · simp [parseLine, htrim]
    · by_cases hlen : (splitN3 ' ' line).length < 3
      · simp [parseLine, htrim, hlen]
      · simp [parseLine, htrim, hlen]
        simpa using h
  · intro ts h
    unfold parseTimestamp
    split
    · rename_i p0 p1 p2 heq
      exact absurd (by rw [heq]; rfl) h
    · rfl
  · intro s h
    unfold sscanfFloatF
    rw [h]
    rfl
  · have h7 : parseTimestamp ("aa:bb:cc".toList) =
        (GoFloat.finite (((0 : ℚ) * 3600 + (0 : ℚ) * 60) + (0 : ℚ)), false) := rfl
    rw [h7]
    norm_num
  · have h9 : parseTimestamp ("01:02:03.5".toList) =
        (GoFloat.finite
          (((1 : ℚ) * (((1 : Nat) : ℚ) + ((0 : Nat) : ℚ) / (10 : ℚ) ^ (0 : Nat)) * 3600 +
            (1 : ℚ) * (((2 : Nat) : ℚ) + ((0 : Nat) : ℚ) / (10 : ℚ) ^ (0 : Nat)) * 60) +
            (1 : ℚ) * (((3 : Nat) : ℚ) + ((5 : Nat) : ℚ) / (10 : ℚ) ^ (1 : Nat))),
          false) := rfl
    rw [h9]
    norm_num

theorem parse_transcript_total_c10_witness :
    parseLine 0 "   ".toList = Option.none ∧
    parseTimestamp "12-34".toList = (GoFloat.finite 0, true) :=
  ⟨parse_transcript_total_c10.2.1 0 "   ".toList (by decide),
   parse_transcript_total_c10.2.2.2.2.1 "12-34".toList (by decide)⟩

/-! ### Digit-string lemmas (towards the SRT round trip) -/

theorem digitVal_ofNat {n : Nat} (h : n < 10) :
    digitVal (Char.ofNat (48 + n)) = n := by
  interval_cases n <;> decide

theorem isDigit_ofNat {n : Nat} (h : n < 10) :
    (Char.ofNat (48 + n)).isDigit = true := by
  interval_cases n <;> decide

theorem natToDigitsAux_spec :
    ∀ fuel n, n < fuel →
      (natToDigitsAux n fuel).all Char.isDigit = true ∧
      natToDigitsAux n fuel ≠ [] ∧
      ∀ a, (natToDigitsAux n fuel).foldl (fun x c => x * 10 + digitVal c) a =
        a * 10 ^ (natToDigitsAux n fuel).length + n := by
  intro fuel
  induction fuel with
  | zero => intro n hn; omega
  | succ fuel ih =>
    intro n hn
    by_cases h10 : n < 10
    · refine ⟨by simp [natToDigitsAux, h10, isDigit_ofNat h10], by simp [natToDigitsAux, h10], ?_⟩
      intro a
      simp [natToDigitsAux, h10, digitVal_ofNat h10]
    · have hrec : n / 10 < fuel := by omega
      obtain ⟨hall, hne, hfold⟩ := ih (n / 10) hrec
      have hd : n % 10 < 10 := Nat.mod_lt _ (by omega)
      refine ⟨?_, ?_, ?_⟩
      · simp [natToDigitsAux, h10, List.all_append, hall, isDigit_ofNat hd]
      · simp [natToDigitsAux, h10]
      · intro a
        simp only [natToDigitsAux, if_neg h10, List.foldl_append, List.foldl_cons,
          List.foldl_nil, List.length_append, List.length_cons, List.length_nil,
          hfold a, digitVal_ofNat hd]
        have : n / 10 * 10 + n % 10 = n := by omega
        rw [pow_succ]
        ring_nf
        omega

theorem natToDigits_all_digits (n : Nat) :
    (natToDigits n).all Char.isDigit = true :=
  (natToDigitsAux_spec (n + 1) n (by omega)).1

theorem natToDigits_ne_nil (n : Nat) : natToDigits n ≠ [] :=
  (natToDigitsAux_spec (n + 1) n (by omega)).2.1

theorem natToDigits_foldl (n a : Nat) :
    (natToDigits n).foldl (fun x c => x * 10 + digitVal c) a =
      a * 10 ^ (natToDigits n).length + n :=
  (natToDigitsAux_spec (n + 1) n (by omega)).2.2 a

theorem parseNatDigits_natToDigits (n : Nat) :
    parseNatDigits (natToDigits n) = some n := by
  unfold parseNatDigits
  rw [if_pos ⟨natToDigits_ne_nil n, natToDigits_all_digits n⟩]
  rw [natToDigits_foldl n 0]
  simp

theorem pad2_all_digits (n : Nat) : (pad2 n).all Char.isDigit = true := by
  unfold pad2
  split
  · simp [natToDigits_all_digits n]
  · exact natToDigits_all_digits n

theorem pad3_all_digits (n : Nat) : (pad3 n).all Char.isDigit = true := by
  unfold pad3
  split
  · simp [natToDigits_all_digits n]
  · split
    · simp [natToDigits_all_digits n]
    · exact natToDigits_all_digits n

theorem parseNatDigits_pad2 (n : Nat) : parseNatDigits (pad2 n) = some n := by
  unfold pad2
  split
  · unfold parseNatDigits
    rw [if_pos ⟨by simp, by simp [natToDigits_all_digits n]⟩]
    simp only [List.foldl_cons]
    rw [show (0 * 10 + digitVal '0') = 0 by decide]
    rw [natToDigits_foldl n 0]
    simp
  · exact parseNatDigits_natToDigits n

theorem parseNatDigits_pad3 (n : Nat) : parseNatDigits (pad3 n) = some n := by
  unfold pad3
  split
  · unfold parseNatDigits
    rw [if_pos ⟨by simp, by simp [natToDigits_all_digits n]⟩]
    simp only [List.foldl_cons]
    rw [show (0 * 10 + digitVal '0') = 0 by decide]
    rw [show (0 * 10 + digitVal '0') = 0 by decide]
    rw [natToDigits_foldl n 0]
    simp
  · split
    · unfold parseNatDigits
      rw [if_pos ⟨by simp, by simp [natToDigits_all_digits n]⟩]
      simp only [List.foldl_cons]
      rw [show (0 * 10 + digitVal '0') = 0 by decide]
      rw [natToDigits_foldl n 0]
      simp
    · exact parseNatDigits_natToDigits n

/-! ### splitOnChar structure lemmas -/

theorem splitOnChar_no_sep {sep : Char} {a : List Char}
    (h : ∀ x ∈ a, x ≠ sep) : splitOnChar sep a = [a] := by
  induction a with
  | nil => rfl
  | cons c r ih =>
    have hr : splitOnChar sep r = [r] := ih (fun x hx => h x (List.mem_cons_of_mem _ hx))
    simp only [splitOnChar, hr]
    rw [if_neg (h c (List.mem_cons_self _ _))]

theorem splitOnChar_append {sep : Char} {a b : List Char}
    (h : ∀ x ∈ a, x ≠ sep) :
    splitOnChar sep (a ++ sep :: b) = a :: splitOnChar sep b := by
  induction a with
  | nil =>
    cases hb : splitOnChar sep b with
    | nil => exact absurd hb (splitOnChar_ne_nil sep b)
    | cons cur more => simp [splitOnChar, hb]
  | cons c r ih =>
    have hr := ih (fun x hx => h x (List.mem_cons_of_mem _ hx))
    simp only [List.cons_append, splitOnChar, List.append_eq, hr]
    rw [if_neg (h c (List.mem_cons_self _ _))]

/-- Every character of an all-digit string differs from any non-digit. -/
theorem ne_of_all_digits {l : List Char} (hl : l.all Char.isDigit = true)
    {c : Char} (hc : c.isDigit = false) : ∀ x ∈ l, x ≠ c := by
  intro x hx heq
  subst heq
  rw [List.all_eq_true] at hl
  rw [hl x hx] at hc
  exact absurd hc (by simp)

theorem pad2_ne {n : Nat} {c : Char} (hc : c.isDigit = false) :
    ∀ x ∈ pad2 n, x ≠ c :=
  ne_of_all_digits (pad2_all_digits n) hc

theorem pad3_ne {n : Nat} {c : Char} (hc : c.isDigit = false) :
    ∀ x ∈ pad3 n, x ≠ c :=
  ne_of_all_digits (pad3_all_digits n) hc

/-- Characters of `srtOfNs` are digits, `:` or `,` — in particular never a
space or a newline. -/
theorem srtOfNs_chars (ns : Nat) :
    ∀ x ∈ srtOfNs ns, x.isDigit = true ∨ x = ':' ∨ x = ',' := by
  intro x hx
  unfold srtOfNs at hx
  simp only [List.mem_append, List.mem_cons] at hx
  rcases hx with ((h | h | h) | h | h) | h | h
  · exact Or.inl (List.all_eq_true.mp (pad2_all_digits _) x h)
  · exact Or.inr (Or.inl h)
  · exact Or.inl (List.all_eq_true.mp (pad2_all_digits _) x h)
  · exact Or.inr (Or.inl h)
  · exact Or.inl (List.all_eq_true.mp (pad2_all_digits _) x h)
  · exact Or.inr (Or.inr h)
  · exact Or.inl (List.all_eq_true.mp (pad3_all_digits _) x h)

theorem srtOfNs_no_space (ns : Nat) : ∀ x ∈ srtOfNs ns, x ≠ ' ' := by
  intro x hx heq
  subst heq
  rcases srtOfNs_chars ns ' ' hx with h | h | h <;> exact absurd h (by decide)

theorem srtOfNs_no_newline (ns : Nat) : ∀ x ∈ srtOfNs ns, x ≠ '\n' := by
  intro x hx heq
  subst heq
  rcases srtOfNs_chars ns '\n' hx with h | h | h <;> exact absurd h (by decide)

/-- `dropWhile` is the identity on a list none of whose elements satisfy the
predicate. -/
theorem dropWhile_of_all_false {p : Char → Bool} {l : List Char}
    (h : ∀ x ∈ l, p x = false) : l.dropWhile p = l := by
  cases l with
  | nil => rfl
  | cons c r => simp [List.dropWhile_cons, h c (List.mem_cons_self _ _)]

theorem trimSpace_no_space {l : List Char}
    (h : ∀ x ∈ l, goIsSpace x = false) : trimSpace l = l := by
  unfold trimSpace
  rw [dropWhile_of_all_false h]
  rw [dropWhile_of_all_false (fun x hx => h x (List.mem_reverse.mp hx))]
  exact List.reverse_reverse l

theorem goIsSpace_not_digit (c : Char) (h : goIsSpace c = true) :
    c.isDigit = false := by
  simp only [goIsSpace, Bool.or_eq_true, decide_eq_true_eq] at h
  rcases h with ((((((rfl | rfl) | rfl) | rfl) | rfl) | rfl) | rfl) | rfl <;> decide

theorem natToDigits_not_space (n : Nat) :
    ∀ x ∈ natToDigits n, goIsSpace x = false := by
  intro x hx
  have hd := List.all_eq_true.mp (natToDigits_all_digits n) x hx
  by_contra hcon
  have hsp : goIsSpace x = true := by
    revert hcon
    cases goIsSpace x <;> simp
  rw [goIsSpace_not_digit x hsp] at hd
  exact absurd hd (by simp)

/-! ### Arithmetic bridge : `formatSRTTime` over non-negative times -/

theorem pad2Int_natCast (m : Nat) : pad2Int (m : Int) = pad2 m := by
  unfold pad2Int
  rw [if_neg (by omega : ¬((m : Int) < 0))]
  simp

theorem pad3Int_natCast (m : Nat) : pad3Int (m : Int) = pad3 m := by
  unfold pad3Int
  rw [if_neg (by omega : ¬((m : Int) < 0))]
  simp

theorem tdiv_natCast (m k : Nat) :
    Int.tdiv (m : Int) (k : Int) = ((m / k : Nat) : Int) := rfl

theorem tmod_natCast (m k : Nat) :
    Int.tmod (m : Int) (k : Int) = ((m % k : Nat) : Int) := rfl

theorem goDurationNs_nonneg {q : ℚ} (hq : 0 ≤ q) : 0 ≤ goDurationNs q := by
  unfold goDurationNs
  apply Int.tdiv_nonneg
  · have : 0 ≤ q.num := Rat.num_nonneg.mpr hq
    positivity
  · positivity

/-- The `formatSRTTime` component expressions over a natural nanosecond
count collapse to `srtOfNs`. -/
theorem srt_components (n : Nat) :
    pad2Int (Int.tdiv (n : Int) 3600000000000) ++ ':' ::
      pad2Int (Int.tmod (Int.tdiv (n : Int) 60000000000) 60) ++ ':' ::
      pad2Int (Int.tmod (Int.tdiv (n : Int) 1000000000) 60) ++ ',' ::
      pad3Int (Int.tmod (Int.tdiv (n : Int) 1000000) 1000) = srtOfNs n := by
  rw [show (3600000000000 : Int) = ((3600000000000 : Nat) : Int) by norm_cast]
  rw [show (60000000000 : Int) = ((60000000000 : Nat) : Int) by norm_cast]
  rw [show (1000000000 : Int) = ((1000000000 : Nat) : Int) by norm_cast]
  rw [show (1000000 : Int) = ((1000000 : Nat) : Int) by norm_cast]
  rw [tdiv_natCast, tdiv_natCast, tdiv_natCast, tdiv_natCast]
  rw [show (60 : Int) = ((60 : Nat) : Int) by norm_cast]
  rw [show (1000 : Int) = ((1000 : Nat) : Int) by norm_cast]
  rw [tmod_natCast, tmod_natCast, tmod_natCast]
  rw [pad2Int_natCast, pad2Int_natCast, pad2Int_natCast, pad3Int_natCast]
  rfl

/-- For a non-negative time, `formatSRTTime` is `srtOfNs` of the truncated
nanosecond count. -/
theorem formatSRTTime_eq_srtOfNs {q : ℚ} (hq : 0 ≤ q) :
    formatSRTTime q = srtOfNs (goDurationNs q).toNat := by
  have hd : ((goDurationNs q).toNat : Int) = goDurationNs q :=
    Int.toNat_of_nonneg (goDurationNs_nonneg hq)
  simp only [formatSRTTime]
  conv_lhs => rw [← hd]
  exact srt_components _

/-- The truncated duration is the floor of the nanosecond value. -/
theorem goDurationNs_eq_floor {q : ℚ} (hq : 0 ≤ q) :
    goDurationNs q = ⌊q * 1000000000⌋ := by
  have hnum : 0 ≤ q.num := Rat.num_nonneg.mpr hq
  have hden : (q.den : ℚ) ≠ 0 := by
    have := q.den_nz
    exact_mod_cast this
  have hqe : q * 1000000000 =
      ((q.num * 1000000000 : ℤ) : ℚ) / ((q.den : ℕ) : ℚ) := by
    conv_lhs => rw [← Rat.num_div_den q]
    push_cast
    ring
  rw [hqe, Rat.floor_intCast_div_natCast]
  unfold goDurationNs
  exact Int.tdiv_eq_ediv (by positivity) (by positivity)

/-- Millisecond truncation, expressed through the nanosecond count used by
the renderer. -/
theorem srtRound_eq_ms {q : ℚ} (hq : 0 ≤ q) :
    srtRound q = (((goDurationNs q).toNat / 1000000 : Nat) : ℚ) / 1000 := by
  have hnum : 0 ≤ q.num := Rat.num_nonneg.mpr hq
  have hden : (q.den : ℚ) ≠ 0 := by
    have := q.den_nz
    exact_mod_cast this
  set aN : Nat := (q.num * 1000).toNat with haN
  have haNc : ((aN : ℤ)) = q.num * 1000 := Int.toNat_of_nonneg (by positivity)
  have h1 : ⌊q * 1000⌋ = ((aN / q.den : Nat) : ℤ) := by
    have hqe : q * 1000 = ((q.num * 1000 : ℤ) : ℚ) / ((q.den : ℕ) : ℚ) := by
      conv_lhs => rw [← Rat.num_div_den q]
      push_cast
      ring
    rw [hqe, Rat.floor_intCast_div_natCast, ← haNc]
    rfl
  have h2 : (goDurationNs q).toNat = aN * 1000000 / q.den := by
    have h2a : goDurationNs q = ((aN * 1000000 / q.den : Nat) : ℤ) := by
      rw [goDurationNs_eq_floor hq]
      have hqe : q * 1000000000 =
          ((q.num * 1000000000 : ℤ) : ℚ) / ((q.den : ℕ) : ℚ) := by
        conv_lhs => rw [← Rat.num_div_den q]
        push_cast
        ring
      rw [hqe, Rat.floor_intCast_div_natCast]
      rw [show (q.num * 1000000000) = (q.num * 1000) * 1000000 by ring, ← haNc]
      rfl
    rw [h2a, Int.toNat_natCast]
  unfold srtRound
  rw [h1, h2]
  have h3 : aN * 1000000 / q.den / 1000000 = aN / q.den := by
    rw [Nat.div_div_eq_div_mul]
    rw [Nat.mul_div_mul_right]
    omega
  rw [h3]
  rw [Int.cast_natCast]

/-! ### The SRT round trip -/

theorem parseSRTTimeToken_srtOfNs (ns : Nat) :
    parseSRTTimeToken (srtOfNs ns) = some (((ns / 1000000 : Nat) : ℚ) / 1000) := by
  have hshape : srtOfNs ns =
      pad2 (ns / 3600000000000) ++ ':' ::
        (pad2 (ns / 60000000000 % 60) ++ ':' ::
          (pad2 (ns / 1000000000 % 60) ++ ',' :: pad3 (ns / 1000000 % 1000))) := by
    unfold srtOfNs
    simp [List.append_assoc, List.cons_append]
  have h0 : ∀ x ∈ pad2 (ns / 1000000000 % 60) ++ ',' :: pad3 (ns / 1000000 % 1000),
      x ≠ ':' := by
    intro x hx
    simp only [List.mem_append, List.mem_cons] at hx
    rcases hx with h | h | h
    · exact pad2_ne (by decide) x h
    · subst h; decide
    · exact pad3_ne (by decide) x h
  have h1 : splitOnChar ':' (srtOfNs ns) =
      [pad2 (ns / 3600000000000), pad2 (ns / 60000000000 % 60),
        pad2 (ns / 1000000000 % 60) ++ ',' :: pad3 (ns / 1000000 % 1000)] := by
    rw [hshape, splitOnChar_append (pad2_ne (by decide)),
      splitOnChar_append (pad2_ne (by decide)), splitOnChar_no_sep h0]
  have h2 : splitOnChar ','
      (pad2 (ns / 1000000000 % 60) ++ ',' :: pad3 (ns / 1000000 % 1000)) =
      [pad2 (ns / 1000000000 % 60), pad3 (ns / 1000000 % 1000)] := by
    rw [splitOnChar_append (pad2_ne (by decide)),
      splitOnChar_no_sep (pad3_ne (by decide))]
  unfold parseSRTTimeToken
  rw [h1]
  simp only [h2, parseNatDigits_pad2, parseNatDigits_pad3]
  congr 1
  have key : (ns / 3600000000000) * 3600000 + (ns / 60000000000 % 60) * 60000 +
      (ns / 1000000000 % 60) * 1000 + ns / 1000000 % 1000 = ns / 1000000 := by
    omega
  have keyQ := congrArg (fun x : Nat => (x : ℚ)) key
  push_cast at keyQ
  field_simp
  linarith [keyQ]

theorem parseSRTTimeLine_fmt {s e : ℚ} (hs : 0 ≤ s) (he : 0 ≤ e) :
    parseSRTTimeLine
      (formatSRTTime s ++ ' ' :: '-' :: '-' :: '>' :: ' ' :: formatSRTTime e) =
      some (srtRound s, srtRound e) := by
  rw [formatSRTTime_eq_srtOfNs hs, formatSRTTime_eq_srtOfNs he]
  have h1 : splitOnChar ' '
      (srtOfNs (goDurationNs s).toNat ++ ' ' ::
        ('-' :: '-' :: '>' :: ' ' :: srtOfNs (goDurationNs e).toNat)) =
      srtOfNs (goDurationNs s).toNat ::
        splitOnChar ' ' ('-' :: '-' :: '>' :: ' ' :: srtOfNs (goDurationNs e).toNat) :=
    splitOnChar_append (srtOfNs_no_space _)
  have h2 : splitOnChar ' ' ('-' :: '-' :: '>' :: ' ' :: srtOfNs (goDurationNs e).toNat) =
      ['-', '-', '>'] :: splitOnChar ' ' (srtOfNs (goDurationNs e).toNat) :=
    @splitOnChar_append ' ' ['-', '-', '>'] (srtOfNs (goDurationNs e).toNat) (by decide)
  have h3 : splitOnChar ' ' (srtOfNs (goDurationNs e).toNat) =
      [srtOfNs (goDurationNs e).toNat] :=
    splitOnChar_no_sep (srtOfNs_no_space _)
  unfold parseSRTTimeLine
  rw [h1, h2, h3]
  have har : ("-->".toList : List Char) = ['-', '-', '>'] := rfl
  simp [har, parseSRTTimeToken_srtOfNs, srtRound_eq_ms hs, srtRound_eq_ms he]

theorem splitOnChar_cons_sep (sep : Char) (r : List Char) :
    splitOnChar sep (sep :: r) = [] :: splitOnChar sep r := by
  have h := @splitOnChar_append sep [] r (by simp)
  simpa using h

/-- The time line of an SRT block contains no newline. -/
theorem timeLine_no_newline {s e : ℚ} (hs : 0 ≤ s) (he : 0 ≤ e) :
    ∀ x ∈ formatSRTTime s ++ ' ' :: '-' :: '-' :: '>' :: ' ' :: formatSRTTime e,
      x ≠ '\n' := by
  rw [formatSRTTime_eq_srtOfNs hs, formatSRTTime_eq_srtOfNs he]
  intro x hx
  simp only [List.mem_append, List.mem_cons] at hx
  rcases hx with h | h | h | h | h | h | h
  · exact srtOfNs_no_newline _ x h
  · subst h; decide
  · subst h; decide
  · subst h; decide
  · subst h; decide
  · subst h; decide
  · exact srtOfNs_no_newline _ x h

theorem natToDigits_no_newline (n : Nat) : ∀ x ∈ natToDigits n, x ≠ '\n' := by
  intro x hx heq
  have h := natToDigits_not_space n x hx
  subst heq
  exact absurd h (by decide)

theorem parseSRTLines_cons_skip (line : List Char) (rest : List (List Char))
    (h : trimSpace line = []) :
    parseSRTLines (line :: rest) = parseSRTLines rest := by
  rw [parseSRTLines.eq_def]
  show (if trimSpace line = [] then parseSRTLines rest
      else
        match rest with
        | timeLine :: textLine :: rest2 =>
          match parseSRTTimeLine timeLine with
          | some p => (p.1, p.2, textLine) :: parseSRTLines rest2
          | Option.none => parseSRTLines rest2
        | _ => []) = parseSRTLines rest
  rw [if_pos h]

theorem parseSRTLines_cons_cue (idx timeLine textLine : List Char)
    (rest : List (List Char)) (hidx : ¬trimSpace idx = []) (p : ℚ × ℚ)
    (ht : parseSRTTimeLine timeLine = some p) :
    parseSRTLines (idx :: timeLine :: textLine :: rest) =
      (p.1, p.2, textLine) :: parseSRTLines rest := by
  rw [parseSRTLines.eq_def]
  show (if trimSpace idx = [] then parseSRTLines (timeLine :: textLine :: rest)
      else
        match timeLine :: textLine :: rest with
        | timeLine :: textLine :: rest2 =>
          match parseSRTTimeLine timeLine with
          | some p => (p.1, p.2, textLine) :: parseSRTLines rest2
          | Option.none => parseSRTLines rest2
        | _ => []) = (p.1, p.2, textLine) :: parseSRTLines rest
  rw [if_neg hidx]
  show (match parseSRTTimeLine timeLine with
      | some p => (p.1, p.2, textLine) :: parseSRTLines rest
      | Option.none => parseSRTLines rest) = (p.1, p.2, textLine) :: parseSRTLines rest
  rw [ht]

/-- One block of rendered SRT parses to one cue, and parsing continues with
the remaining blocks. -/
theorem parseSRTLines_generateSRTAux (segs : List Segment) :
    ∀ i, (∀ seg ∈ segs, 0 ≤ seg.start ∧ 0 ≤ seg.stop ∧ ∀ c ∈ seg.text, c ≠ '\n') →
    parseSRTLines (splitOnChar '\n' (generateSRTAux i segs)) =
      segs.map (fun seg => (srtRound seg.start, srtRound seg.stop, seg.text)) := by
  induction segs with
  | nil => intro i _; rfl
  | cons seg rest ih =>
    intro i h
    obtain ⟨hs, he, htext⟩ := h seg (List.mem_cons_self _ _)
    have hassoc : generateSRTAux i (seg :: rest) =
        natToDigits (i + 1) ++ '\n' ::
          ((formatSRTTime seg.start ++ ' ' :: '-' :: '-' :: '>' :: ' ' ::
              formatSRTTime seg.stop) ++ '\n' ::
            (seg.text ++ '\n' :: ('\n' :: generateSRTAux (i + 1) rest))) := by
      simp [generateSRTAux, srtBlock, List.append_assoc, List.cons_append]
    rw [hassoc]
    rw [splitOnChar_append (natToDigits_no_newline (i + 1))]
    rw [splitOnChar_append (timeLine_no_newline hs he)]
    rw [splitOnChar_append htext]
    rw [splitOnChar_cons_sep]
    have hidx : ¬trimSpace (natToDigits (i + 1)) = [] := by
      rw [trimSpace_no_space (natToDigits_not_space (i + 1))]
      exact natToDigits_ne_nil (i + 1)
    rw [parseSRTLines_cons_cue _ _ _ _ hidx _ (parseSRTTimeLine_fmt hs he)]
    rw [parseSRTLines_cons_skip [] _ rfl]
    rw [ih (i + 1) (fun s hsm => h s (List.mem_cons_of_mem _ hsm))]
    simp

/-- C7, amended: the claim as stated is false (see the counterexample): the
program's own transcript reader expects `[HH:MM:SS --> HH:MM:SS] text`
lines and recovers nothing from rendered SRT.  Amended claim: re-parsing
with a compatible SRT reader recovers the same ordered
`{start, end, text}` tuples up to millisecond rounding — for every segment
list with non-negative times and single-line texts, parsing the rendered
SRT document yields exactly the segments' millisecond-truncated start/end
times and their texts, in order. -/
theorem srt_roundtrip_c7_amended (segs : List Segment)
    (h : ∀ seg ∈ segs, 0 ≤ seg.start ∧ 0 ≤ seg.stop ∧ ∀ c ∈ seg.text, c ≠ '\n') :
    parseSRTText (generateSRT segs) =
      segs.map (fun seg => (srtRound seg.start, srtRound seg.stop, seg.text)) :=
  parseSRTLines_generateSRTAux segs 0 h

/-- C7, counterexample: rendering one ordinary segment to SRT and
re-parsing with the program's transcript parser recovers nothing — the
original tuple list is nonempty but the recovered list is empty. -/
theorem srt_roundtrip_c7_counterexample :
    parseTranscript (generateSRT [sampleSegment]) = [] ∧
    [sampleSegment] ≠ ([] : List Segment) :=
  ⟨rfl, by decide⟩

theorem srt_roundtrip_c7_witness :
    parseSRTText (generateSRT [sampleSegment]) =
      [(1, 2, "hello world".toList)] := by
  have h := srt_roundtrip_c7_amended [sampleSegment] (by
    intro seg hseg
    simp only [List.mem_cons, List.not_mem_nil, or_false] at hseg
    subst hseg
    refine ⟨by norm_num [sampleSegment], by norm_num [sampleSegment], by decide⟩)
  rw [h]
  have h1 : srtRound 1 = 1 := by
    unfold srtRound
    norm_num
  have h2 : srtRound 2 = 2 := by
    unfold srtRound
    norm_num
  simp [sampleSegment, h1, h2]

/-- C8, counterexample: parsing the Scenario A target string yields two
DeliveryTargets whose provider kinds are both `custom` — not `twitch` and
`youtube` — because `ParseStreamURL` reads the provider kind from the FIRST
path component (here `live`) and the stream key from the second. -/
theorem target_parse_c8_counterexample :
    parseTargetURLs "rtmp://a/live/twitch/KEY1,rtmp://b/live/youtube/KEY2".toList =
      .ok [{ url := "rtmp://a/live/twitch/KEY1".toList, type := .custom,
             streamKey := "twitch".toList, authToken := [] },
           { url := "rtmp://b/live/youtube/KEY2".toList, type := .custom,
             streamKey := "youtube".toList, authToken := [] }] ∧
    StreamType.custom ≠ StreamType.twitch ∧
    StreamType.custom ≠ StreamType.youtube :=
  ⟨rfl, by decide, by decide⟩

/-- C8, amended: parsing the Scenario A string yields exactly two
DeliveryTargets, but both have provider kind `custom` with stream keys
`twitch` and `youtube` (second path component) and the original URLs kept
canonical; provider kinds `twitch`/`youtube` are produced only when the
provider kind is the first path component, as in
`rtmp://a/twitch/KEY1,rtmp://b/youtube/KEY2`, which yields kinds
`twitch`/`youtube` with `KEY1`/`KEY2` as stream keys and the providers'
canonical ingest URLs. -/
theorem target_parse_c8_amended :
    parseTargetURLs "rtmp://a/live/twitch/KEY1,rtmp://b/live/youtube/KEY2".toList =
      .ok [{ url := "rtmp://a/live/twitch/KEY1".toList, type := .custom,
             streamKey := "twitch".toList, authToken := [] },
           { url := "rtmp://b/live/youtube/KEY2".toList, type := .custom,
             streamKey := "youtube".toList, authToken := [] }] ∧
    parseTargetURLs "rtmp://a/twitch/KEY1,rtmp://b/youtube/KEY2".toList =
      .ok [{ url := "rtmp://live.twitch.tv/app/KEY1".toList, type := .twitch,
             streamKey := "KEY1".toList, authToken := [] },
           { url := "rtmp://a.rtmp.youtube.com/live2/KEY2".toList, type := .youtube,
             streamKey := "KEY2".toList, authToken := [] }] :=
  ⟨rfl, rfl⟩

end TranscriptionProxy
